import Mathlib

/-!
Verification of the pixel-analysis engine of the image-quality-analyzer
repository.  The TypeScript sources are embedded shallowly:

* an RGBA buffer becomes a structure with dimensions and a byte-fetch
  function (the engine is only ever run on well-formed ImageData objects,
  whose length is width*height*4; all loops below range over exactly the
  indices the source touches);
* JavaScript floating point numbers are modelled as rationals; the single
  transcendental operation, Math.sqrt, is passed in as an explicit
  function parameter named sq, and theorems that depend on it only assume
  it is nonnegative;
* a division whose denominator the source allows to be zero produces NaN
  in JavaScript.  NaN is modelled as Option.none, and every numeric
  comparison against none is false, matching the semantics of comparisons
  against NaN.  Divisions whose denominator is provably nonzero on every
  path stay in plain rationals.
-/

/-- Math.min on rational values, written with an explicit test so the
kernel can evaluate it (the NaN case is handled at the Option level). -/
def jsMin (a b : ℚ) : ℚ :=
  if a ≤ b then a else b

/-- Math.max on rational values. -/
def jsMax (a b : ℚ) : ℚ :=
  if a ≤ b then b else a

/-- An RGBA pixel buffer: channel order R,G,B,A, row major.  The byte at
flat index i of the underlying Uint8ClampedArray is data i. -/
structure ImageData where
  width : Nat
  height : Nat
  data : Nat → Nat

/-- Luminance of the pixel whose R byte sits at flat index idx, exactly
the expression 0.299*data[idx] + 0.587*data[idx+1] + 0.114*data[idx+2]
appearing throughout the source. -/
def gray (buf : ImageData) (idx : Nat) : ℚ :=
  (299/1000 : ℚ) * buf.data idx + (587/1000 : ℚ) * buf.data (idx + 1)
    + (114/1000 : ℚ) * buf.data (idx + 2)

/-- Luminance at pixel coordinates (x, y): the source always indexes with
(y*width + x)*4. -/
def grayXY (buf : ImageData) (x y : Nat) : ℚ :=
  gray buf ((y * buf.width + x) * 4)

/-- The interiorPx pixels (y, x) visited by every kernel loop of the form
for (y = 1; y < height-1; y++) for (x = 1; x < width-1; x++). -/
def interiorPx (buf : ImageData) : Finset (Nat × Nat) :=
  Finset.Ico 1 (buf.height - 1) ×ˢ Finset.Ico 1 (buf.width - 1)

/-- The count variable accumulated by those loops. -/
def interiorCount (buf : ImageData) : Nat :=
  (interiorPx buf).card

/-- Response of the 3x3 Laplacian kernel [0,-1,0,-1,4,-1,0,-1,0] at pixel
(x, y); the inner ky/kx loop of the source unfolded. -/
def lapAt (buf : ImageData) (x y : Nat) : ℚ :=
  4 * grayXY buf x y - grayXY buf (x - 1) y - grayXY buf (x + 1) y
    - grayXY buf x (y - 1) - grayXY buf x (y + 1)

/-- First pass of calculateLaplacianVariance: sum of absolute responses. -/
def lapAbsSum (buf : ImageData) : ℚ :=
  ∑ p ∈ interiorPx buf, |lapAt buf p.2 p.1|

/-- mean after the first pass (NaN when the interiorPx is empty; callers
branch on interiorCount before using this). -/
def lapMean (buf : ImageData) : ℚ :=
  lapAbsSum buf / (interiorCount buf : ℚ)

/-- Second pass: variance of the absolute Laplacian response. -/
def lapVar (buf : ImageData) : ℚ :=
  (∑ p ∈ interiorPx buf, (|lapAt buf p.2 p.1| - lapMean buf) ^ 2)
    / (interiorCount buf : ℚ)

/-- calculateLaplacianVariance; none models the NaN the source computes
when the buffer has no interiorPx pixels (mean = 0/0). -/
def laplacianScore (buf : ImageData) : Option ℚ :=
  if interiorCount buf = 0 then none else some (lapVar buf)

/-- Sobel X response, kernel [-1,0,1,-2,0,2,-1,0,1], loop unfolded. -/
def sobelGx (buf : ImageData) (x y : Nat) : ℚ :=
  grayXY buf (x + 1) (y - 1) - grayXY buf (x - 1) (y - 1)
    + 2 * grayXY buf (x + 1) y - 2 * grayXY buf (x - 1) y
    + grayXY buf (x + 1) (y + 1) - grayXY buf (x - 1) (y + 1)

/-- Sobel Y response, kernel [-1,-2,-1,0,0,0,1,2,1], loop unfolded. -/
def sobelGy (buf : ImageData) (x y : Nat) : ℚ :=
  grayXY buf (x - 1) (y + 1) + 2 * grayXY buf x (y + 1)
    + grayXY buf (x + 1) (y + 1) - grayXY buf (x - 1) (y - 1)
    - 2 * grayXY buf x (y - 1) - grayXY buf (x + 1) (y - 1)

/-- Total Sobel gradient magnitude over the interiorPx, with sq standing
for Math.sqrt. -/
def sobelTotal (sq : ℚ → ℚ) (buf : ImageData) : ℚ :=
  ∑ p ∈ interiorPx buf, sq (sobelGx buf p.2 p.1 ^ 2 + sobelGy buf p.2 p.1 ^ 2)

/-- calculateSobelVariance (mean gradient magnitude); none models the NaN
produced by 0/0 on buffers without interiorPx pixels. -/
def sobelScore (sq : ℚ → ℚ) (buf : ImageData) : Option ℚ :=
  if interiorCount buf = 0 then none else some (sobelTotal sq buf / (interiorCount buf : ℚ))

/-- Local gradient magnitude used by calculateFFTSharpness. -/
def gradMag (sq : ℚ → ℚ) (buf : ImageData) (x y : Nat) : ℚ :=
  sq (|grayXY buf (x + 1) y - grayXY buf x y| ^ 2
      + |grayXY buf x (y + 1) - grayXY buf x y| ^ 2)

/-- Total gradient energy of calculateFFTSharpness. -/
def fftTotal (sq : ℚ → ℚ) (buf : ImageData) : ℚ :=
  ∑ p ∈ interiorPx buf, gradMag sq buf p.2 p.1

/-- High-frequency energy: only magnitudes above the threshold 10. -/
def fftHigh (sq : ℚ → ℚ) (buf : ImageData) : ℚ :=
  ∑ p ∈ interiorPx buf, if 10 < gradMag sq buf p.2 p.1 then gradMag sq buf p.2 p.1 else 0

/-- calculateFFTSharpness; the source guards the division with
totalEnergy > 0, so this is total. -/
def fftSharpness (sq : ℚ → ℚ) (buf : ImageData) : ℚ :=
  if 0 < fftTotal sq buf then fftHigh sq buf / fftTotal sq buf else 0

/-- combineBlurScores.  NaN in either of the first two inputs (Math.min of
NaN is NaN) makes the whole weighted sum NaN. -/
def combineBlurScores : Option ℚ → Option ℚ → ℚ → Option ℚ
  | some l, some s, f =>
      some (jsMin (l / 1000) 1 * (0.4 : ℚ) + jsMin (s / 100) 1 * (0.4 : ℚ) + jsMin f 1 * (0.2 : ℚ))
  | none, _, _ => none
  | some _, none, _ => none

/-- v < c with NaN modelled as none: a comparison against NaN is false. -/
def optLT (o : Option ℚ) (c : ℚ) : Bool :=
  match o with
  | some v => decide (v < c)
  | none => false

/-- v > c with NaN modelled as none: a comparison against NaN is false. -/
def optGT (o : Option ℚ) (c : ℚ) : Bool :=
  match o with
  | some v => decide (c < v)
  | none => false

/-- The pixel pairs visited by calculateDirectionalBlur for offset
(dx, dy): interiorPx pixels with the partner pixel in bounds. -/
def dirPairs (buf : ImageData) (dx dy : Nat) : Finset (Nat × Nat) :=
  (interiorPx buf).filter (fun p => p.2 + dx < buf.width ∧ p.1 + dy < buf.height)

/-- calculateDirectionalBlur: mean absolute luminance difference along the
offset, 0 when no pair qualifies (the source guards count > 0). -/
def directionalBlur (buf : ImageData) (dx dy : Nat) : ℚ :=
  let c := (dirPairs buf dx dy).card
  if 0 < c then
    (∑ p ∈ dirPairs buf dx dy,
        |grayXY buf (p.2 + dx) (p.1 + dy) - grayXY buf p.2 p.1|) / (c : ℚ)
  else 0

/-- Blur classification labels of the source, including the "none" label
for sharp images. -/
inductive BlurType where
  | motion
  | focus
  | gaussian
  | noBlur
deriving DecidableEq, Repr

/-- detectBlurType.  On a NaN overall score both threshold comparisons are
false, so a degenerate buffer falls through to the gaussian branch unless
the directional test fires. -/
def detectBlurType (buf : ImageData) (score : Option ℚ) : BlurType :=
  if optGT score (0.7 : ℚ) then BlurType.noBlur
  else
    let h := directionalBlur buf 1 0
    let v := directionalBlur buf 0 1
    let d := directionalBlur buf 1 1
    let mx := jsMax h (jsMax v d)
    if ((h + v + d) / 3) * (1.5 : ℚ) < mx then BlurType.motion
    else if optLT score (0.3 : ℚ) then BlurType.focus
    else BlurType.gaussian

/-- extractBlock: block-local pixel (x, y) reads the parent byte at
((startY+y)*width + (startX+x))*4 + channel. -/
def extractBlock (buf : ImageData) (sx sy bw bh : Nat) : ImageData :=
  ⟨bw, bh, fun ti =>
    buf.data (((sy + ti / 4 / bw) * buf.width + (sx + ti / 4 % bw)) * 4 + ti % 4)⟩

/-- The start offsets visited by for (v = 0; v < limit; v += 32); the
caller passes limit = dimension - 32 with truncated subtraction, which
agrees with the JavaScript loop (a negative bound runs zero times). -/
def blockStarts (limit : Nat) : List Nat :=
  (List.range limit).filter (fun v => v % 32 = 0)

/-- A localized blur region as pushed by detectBlurRegions. -/
structure BlurRegion where
  x : Nat
  y : Nat
  width : Nat
  height : Nat
  blurScore : ℚ
  type : BlurType
deriving DecidableEq, Repr

/-- The region (if any) emitted for the 32x32 block at (x, y).  A NaN
block variance (impossible for a 32x32 block, kept for faithfulness)
fails the < 500 comparison and emits nothing. -/
def regionFor (buf : ImageData) (x y : Nat) : List BlurRegion :=
  match laplacianScore (extractBlock buf x y 32 32) with
  | some v =>
      if v < 500 then
        [⟨x, y, 32, 32, 1 - jsMin (v / 1000) 1,
          if v < 200 then BlurType.focus else BlurType.motion⟩]
      else []
  | none => []

/-- detectBlurRegions: row-major scan of 32x32 blocks whose start obeys
y < height - 32 and x < width - 32 (strict, as in the source). -/
def detectBlurRegions (buf : ImageData) : List BlurRegion :=
  (blockStarts (buf.height - 32)).flatMap (fun y =>
    (blockStarts (buf.width - 32)).flatMap (fun x => regionFor buf x y))

/-- calculateBlurConfidence.  When regions exist the 0.8 base is scaled by
1 - |overall - meanRegionScore|, which is NaN if the overall score is NaN;
the final clamp keeps NaN (Math.min/Math.max propagate it), hence the
Option result. -/
def calcBlurConfidence (score : Option ℚ) (regions : List BlurRegion) : Option ℚ :=
  let c1 : Option ℚ :=
    if regions.isEmpty then some (0.8 : ℚ)
    else
      score.map (fun s =>
        (0.8 : ℚ) * (1 - |s - (regions.map BlurRegion.blurScore).sum / (regions.length : ℚ)|))
  let c2 := c1.map (fun c => if optLT score (0.2 : ℚ) || optGT score (0.8 : ℚ) then c + (0.1 : ℚ) else c)
  c2.map (fun c => jsMax (0.3 : ℚ) (jsMin (0.95 : ℚ) c))

/-- The result record of BlurDetector.analyzeBlur. -/
structure BlurAnalysisResult where
  overallBlurScore : Option ℚ
  blurType : BlurType
  blurRegions : List BlurRegion
  confidence : Option ℚ
deriving DecidableEq, Repr

/-- BlurDetector.analyzeBlur. -/
def analyzeBlur (sq : ℚ → ℚ) (buf : ImageData) : BlurAnalysisResult :=
  let score := combineBlurScores (laplacianScore buf) (sobelScore sq buf) (fftSharpness sq buf)
  let regions := detectBlurRegions buf
  { overallBlurScore := score
    blurType := detectBlurType buf score
    blurRegions := regions
    confidence := calcBlurConfidence score regions }

/-! ### MetricsEngine (ImageAnalyzer.calculateMetrics and helpers) -/

/-- The five scalar metrics returned by calculateMetrics. -/
structure ImageMetrics where
  sharpness : ℚ
  contrast : ℚ
  brightness : ℚ
  saturation : ℚ
  noise : ℚ
deriving DecidableEq, Repr

/-- Sum of per-pixel luminance over the single linear pass of
calculateMetrics (pixel p starts at byte 4*p). -/
def brightnessSum (buf : ImageData) : ℚ :=
  ∑ p ∈ Finset.range (buf.width * buf.height), gray buf (4 * p)

/-- Per-pixel saturation: (max-min)/max over the RGB channels, 0 when
max is 0. -/
def pixelSat (buf : ImageData) (p : Nat) : ℚ :=
  let r := buf.data (4 * p)
  let g := buf.data (4 * p + 1)
  let b := buf.data (4 * p + 2)
  let mx := max r (max g b)
  let mn := min r (min g b)
  if mx = 0 then 0 else ((mx : ℚ) - (mn : ℚ)) / (mx : ℚ)

/-- Accumulated saturation of the linear pass. -/
def satSum (buf : ImageData) : ℚ :=
  ∑ p ∈ Finset.range (buf.width * buf.height), pixelSat buf p

/-- Variance accumulator of calculateContrast (sum over all pixels of the
squared deviation from the supplied average). -/
def contrastVarSum (buf : ImageData) (avg : ℚ) : ℚ :=
  ∑ p ∈ Finset.range (buf.width * buf.height), (gray buf (4 * p) - avg) ^ 2

/-- calculateContrast: sqrt of the mean squared deviation (data.length/4
is the pixel count). -/
def calculateContrast (sq : ℚ → ℚ) (buf : ImageData) (avg : ℚ) : ℚ :=
  sq (contrastVarSum buf avg / ((buf.width * buf.height : Nat) : ℚ))

/-- Local variance of the 3x3 neighbourhood of interior pixel (x, y) in
calculateNoise; the inner loop counts exactly 9 samples. -/
def noisePix (buf : ImageData) (x y : Nat) : ℚ :=
  (∑ d ∈ Finset.range 3 ×ˢ Finset.range 3,
      (grayXY buf (x + d.2 - 1) (y + d.1 - 1) - grayXY buf x y) ^ 2) / 9

/-- calculateNoise: sum of local variances over the interior. -/
def noiseSum (buf : ImageData) : ℚ :=
  ∑ p ∈ interiorPx buf, noisePix buf p.2 p.1

/-- ImageAnalyzer.calculateMetrics.  calculateSharpness is the same
double loop as the first Laplacian pass, so its sum is lapAbsSum. -/
def calculateMetrics (sq : ℚ → ℚ) (buf : ImageData) : ImageMetrics :=
  let pixelCount : ℚ := ((buf.width * buf.height : Nat) : ℚ)
  { sharpness := jsMin (lapAbsSum buf / pixelCount) 1
    contrast := jsMin (calculateContrast sq buf (brightnessSum buf / pixelCount) / 255) 1
    brightness := brightnessSum buf / pixelCount / 255
    saturation := satSum buf / pixelCount
    noise := jsMin (noiseSum buf / pixelCount) 1 }

/-! ### ExposureEngine (ContrastBrightnessAnalyzer) -/

/-- Rounded luminance of pixel p, the bin index of the luminance
histogram; Math.round on a nonnegative value is the floor of x + 1/2,
which is Mathlib round. -/
def lumNat (buf : ImageData) (p : Nat) : Nat :=
  (round (gray buf (4 * p))).toNat

/-- Histogram bin v of the red channel: pixels whose R byte equals v. -/
def histRed (buf : ImageData) (v : Nat) : Nat :=
  ((Finset.range (buf.width * buf.height)).filter (fun p => buf.data (4 * p) = v)).card

/-- Histogram bin v of the green channel. -/
def histGreen (buf : ImageData) (v : Nat) : Nat :=
  ((Finset.range (buf.width * buf.height)).filter (fun p => buf.data (4 * p + 1) = v)).card

/-- Histogram bin v of the blue channel. -/
def histBlue (buf : ImageData) (v : Nat) : Nat :=
  ((Finset.range (buf.width * buf.height)).filter (fun p => buf.data (4 * p + 2) = v)).card

/-- Histogram bin v of the rounded luminance. -/
def histLum (buf : ImageData) (v : Nat) : Nat :=
  ((Finset.range (buf.width * buf.height)).filter (fun p => lumNat buf p = v)).card

/-- The four 256-bin histograms of calculateHistogram, kept as bin-count
functions. -/
structure HistogramData where
  red : Nat → Nat
  green : Nat → Nat
  blue : Nat → Nat
  luminance : Nat → Nat
  bins : Nat

/-- ContrastBrightnessAnalyzer.calculateHistogram. -/
def calculateHistogram (buf : ImageData) : HistogramData :=
  ⟨histRed buf, histGreen buf, histBlue buf, histLum buf, 256⟩

/-- totalPixels as summed from a histogram (reduce over the 256 bins). -/
def histTotal (hist : Nat → Nat) : Nat :=
  ∑ i ∈ Finset.range 256, hist i

/-- Weighted sum of bin indices, the mean accumulator. -/
def histWeighted (hist : Nat → Nat) : ℚ :=
  ∑ i ∈ Finset.range 256, (i : ℚ) * (hist i : ℚ)

/-- Histogram mean luminance (NaN on an empty histogram; the engine is
run on buffers with at least one pixel). -/
def histMean (hist : Nat → Nat) : ℚ :=
  histWeighted hist / (histTotal hist : ℚ)

/-- Variance accumulator of the global-contrast computation. -/
def histVarSum (hist : Nat → Nat) : ℚ :=
  ∑ i ∈ Finset.range 256, (hist i : ℚ) * ((i : ℚ) - histMean hist) ^ 2

/-- globalContrast: population standard deviation of the luminance
histogram divided by 255. -/
def globalContrastQ (sq : ℚ → ℚ) (hist : Nat → Nat) : ℚ :=
  sq (histVarSum hist / (histTotal hist : ℚ)) / 255

/-- Window-centre offsets visited by for (v = 5; v < limit; v += 5) with
limit = dimension - 5 (truncated subtraction, as in the block loops). -/
def winStarts (limit : Nat) : List Nat :=
  (List.range limit).filter (fun v => 5 ≤ v ∧ v % 5 = 0)

/-- Luminances of the 11x11 window centred at (cx, cy). -/
def windowVals (buf : ImageData) (cx cy : Nat) : List ℚ :=
  (List.range 11).flatMap (fun wy =>
    (List.range 11).map (fun wx => grayXY buf (cx + wx - 5) (cy + wy - 5)))

/-- Window minimum, accumulated from the initial value 255. -/
def winMin (buf : ImageData) (cx cy : Nat) : ℚ :=
  (windowVals buf cx cy).foldl jsMin 255

/-- Window maximum, accumulated from the initial value 0. -/
def winMax (buf : ImageData) (cx cy : Nat) : ℚ :=
  (windowVals buf cx cy).foldl jsMax 0

/-- The sampled window centres of calculateLocalContrast, row major. -/
def winCentres (buf : ImageData) : List (Nat × Nat) :=
  (winStarts (buf.height - 5)).flatMap (fun y =>
    (winStarts (buf.width - 5)).map (fun x => (x, y)))

/-- calculateLocalContrast: mean Michelson-style contrast over windows
with max + min > 0, 0 when no window qualifies. -/
def calculateLocalContrast (buf : ImageData) : ℚ :=
  let qual := (winCentres buf).filter
    (fun c => decide (0 < winMax buf c.1 c.2 + winMin buf c.1 c.2))
  if 0 < qual.length then
    (qual.map (fun c =>
        (winMax buf c.1 c.2 - winMin buf c.1 c.2)
          / (winMax buf c.1 c.2 + winMin buf c.1 c.2))).sum / (qual.length : ℚ)
  else 0

/-- findMinNonZero: first bin with a positive count, 0 as fallback. -/
def findMinNonZero (hist : Nat → Nat) : Nat :=
  (((List.range 256).find? (fun i => decide (0 < hist i)))).getD 0

/-- findMaxNonZero: last bin with a positive count, 255 as fallback. -/
def findMaxNonZero (hist : Nat → Nat) : Nat :=
  (((List.range 256).reverse.find? (fun i => decide (0 < hist i)))).getD 255

/-- michelsonContrast = (max-min)/(max+min); none models the NaN of 0/0
when both extreme bins are 0 (an all-black luminance histogram). -/
def michelsonContrastQ (hist : Nat → Nat) : Option ℚ :=
  let mx := findMaxNonZero hist
  let mn := findMinNonZero hist
  if mx + mn = 0 then none else some (((mx : ℚ) - (mn : ℚ)) / ((mx : ℚ) + (mn : ℚ)))

/-- Loop body of calculateContrastRatio: walks the bins accumulating the
cumulative count; the first condition latches p10 while it is still 0,
the second sets p90 and breaks.  Returns (p10, p90), with p90 = 255 when
the loop runs to the end. -/
def crGo (hist : Nat → Nat) (p10T p90T : ℚ) : List Nat → Nat → Nat → Nat × Nat
  | [], _, p10 => (p10, 255)
  | i :: rest, cum, p10 =>
      let cum2 := cum + hist i
      let p10b := if p10T ≤ (cum2 : ℚ) ∧ p10 = 0 then i else p10
      if p90T ≤ (cum2 : ℚ) then (p10b, i)
      else crGo hist p10T p90T rest cum2 p10b

/-- calculateContrastRatio: p90/p10 from the cumulative histogram, 1 when
the 10th-percentile bin is 0. -/
def calculateContrastRatio (hist : Nat → Nat) : ℚ :=
  let total := histTotal hist
  let pr := crGo hist ((total : ℚ) * (0.1 : ℚ)) ((total : ℚ) * (0.9 : ℚ)) (List.range 256) 0 0
  if 0 < pr.1 then (pr.2 : ℚ) / (pr.1 : ℚ) else 1

/-- The five contrast estimators of calculateContrastMetrics. -/
structure ContrastMetrics where
  globalContrast : ℚ
  localContrast : ℚ
  michelsonContrast : Option ℚ
  rmsContrast : ℚ
  contrastRatio : ℚ

/-- calculateContrastMetrics.  The source computes rmsContrast by the
same two-pass formula as globalContrast (the duplication is preserved:
both fields carry the identical expression). -/
def calculateContrastMetrics (sq : ℚ → ℚ) (buf : ImageData) (hist : Nat → Nat) : ContrastMetrics :=
  { globalContrast := globalContrastQ sq hist
    localContrast := calculateLocalContrast buf
    michelsonContrast := michelsonContrastQ hist
    rmsContrast := globalContrastQ sq hist
    contrastRatio := calculateContrastRatio hist }

/-- Exposure classification of calculateBrightnessMetrics. -/
inductive ExposureLevel where
  | underexposed
  | optimal
  | overexposed
deriving DecidableEq, Repr

/-- Shadow/midtone/highlight fractions. -/
structure BrightnessDistribution where
  shadows : ℚ
  midtones : ℚ
  highlights : ℚ
deriving DecidableEq, Repr

/-- The brightness block of the analysis. -/
structure BrightnessMetrics where
  averageBrightness : ℚ
  medianBrightness : ℚ
  brightnessDistribution : BrightnessDistribution
  exposureLevel : ExposureLevel
deriving DecidableEq, Repr

/-- Loop body of calculateMedianFromHistogram: first bin whose cumulative
count reaches the target, 128 as fallback. -/
def medGo (hist : Nat → Nat) (target : ℚ) : List Nat → Nat → Nat
  | [], _ => 128
  | i :: rest, cum =>
      let cum2 := cum + hist i
      if target ≤ (cum2 : ℚ) then i else medGo hist target rest cum2

/-- calculateMedianFromHistogram. -/
def medianFromHistogram (hist : Nat → Nat) : Nat :=
  medGo hist ((histTotal hist : ℚ) / 2) (List.range 256) 0

/-- calculateBrightnessMetrics (totalPixels here is width*height, not the
histogram sum). -/
def calculateBrightnessMetrics (buf : ImageData) (hist : Nat → Nat) : BrightnessMetrics :=
  let totalPixels : ℚ := ((buf.width * buf.height : Nat) : ℚ)
  let avg := histWeighted hist / totalPixels / 255
  { averageBrightness := avg
    medianBrightness := (medianFromHistogram hist : ℚ) / 255
    brightnessDistribution :=
      { shadows := ((∑ i ∈ Finset.range 256, if i ≤ 85 then hist i else 0 : Nat) : ℚ) / totalPixels
        midtones := ((∑ i ∈ Finset.range 256, if 85 < i ∧ i ≤ 170 then hist i else 0 : Nat) : ℚ) / totalPixels
        highlights := ((∑ i ∈ Finset.range 256, if 170 < i then hist i else 0 : Nat) : ℚ) / totalPixels }
    exposureLevel :=
      if avg < (0.3 : ℚ) then ExposureLevel.underexposed
      else if (0.7 : ℚ) < avg then ExposureLevel.overexposed
      else ExposureLevel.optimal }

/-- calculateDynamicRange. -/
def calculateDynamicRange (hist : Nat → Nat) : ℚ :=
  ((findMaxNonZero hist : ℚ) - (findMinNonZero hist : ℚ)) / 255

/-- The adjustment strings of analyzeExposure, as an enumeration. -/
inductive RecommendedAdjustment where
  | increaseExposure
  | decreaseExposure
  | liftShadows
  | lowerHighlights
  | noAdjustment
deriving DecidableEq, Repr

/-- Clipping analysis of analyzeExposure. -/
structure ExposureAnalysis where
  clippedShadows : ℚ
  clippedHighlights : ℚ
  optimalExposure : Bool
  recommendedAdjustment : RecommendedAdjustment
deriving DecidableEq, Repr

/-- analyzeExposure: clipped fractions from bins 0..10 and 245..255 over
the histogram total. -/
def analyzeExposure (hist : Nat → Nat) (bm : BrightnessMetrics) : ExposureAnalysis :=
  let total : ℚ := (histTotal hist : ℚ)
  let cs := ((∑ i ∈ Finset.range 11, hist i : Nat) : ℚ) / total
  let ch := ((∑ i ∈ Finset.Icc 245 255, hist i : Nat) : ℚ) / total
  { clippedShadows := cs
    clippedHighlights := ch
    optimalExposure := decide (cs < (0.02 : ℚ)) && decide (ch < (0.02 : ℚ))
    recommendedAdjustment :=
      if bm.exposureLevel = ExposureLevel.underexposed then RecommendedAdjustment.increaseExposure
      else if bm.exposureLevel = ExposureLevel.overexposed then RecommendedAdjustment.decreaseExposure
      else if (0.05 : ℚ) < cs then RecommendedAdjustment.liftShadows
      else if (0.05 : ℚ) < ch then RecommendedAdjustment.lowerHighlights
      else RecommendedAdjustment.noAdjustment }

/-- The result record of analyzeContrastBrightness. -/
structure CBAnalysis where
  contrast : ContrastMetrics
  brightness : BrightnessMetrics
  histogram : HistogramData
  dynamicRange : ℚ
  exposureAnalysis : ExposureAnalysis

/-- ContrastBrightnessAnalyzer.analyzeContrastBrightness. -/
def analyzeContrastBrightness (sq : ℚ → ℚ) (buf : ImageData) : CBAnalysis :=
  let hist := calculateHistogram buf
  let brightness := calculateBrightnessMetrics buf hist.luminance
  { contrast := calculateContrastMetrics sq buf hist.luminance
    brightness := brightness
    histogram := hist
    dynamicRange := calculateDynamicRange hist.luminance
    exposureAnalysis := analyzeExposure hist.luminance brightness }

/-! ### FeatureEngine (AIQualityClassifier)

Only the parts that feed the verified outputs are embedded: the class
prediction and the classification confidence depend on technicalScore,
aestheticScore and compositionScore alone.  colorHarmony,
visualComplexity, the recommendation list and the technical assessment
feed no claim and are elided.  Math.random is modelled as an explicit
stream rand : Nat -> Rat, consumed at the fixed call positions of
extractImageFeatures: draws 0..3 are the ruleOfThirds, colorDistribution,
edgeDistribution and balance placeholders (each rand*0.3+0.2), draws 4..6
are the symmetry, leadingLines and depth placeholders (each
rand*0.5+0.25); draw 7 (textureDensity) only feeds the elided
visualComplexity. -/

/-- Clamp to the unit interval, Math.max(0, Math.min(1, x)). -/
def clamp01 (x : ℚ) : ℚ :=
  jsMax 0 (jsMin 1 x)

/-- One weight/bias pair of the simulated model. -/
structure ModelWeightEntry where
  weight : ℚ
  bias : ℚ

/-- The fixed modelWeights record of the AIQualityClassifier
constructor. -/
structure ModelWeights where
  sharpness : ModelWeightEntry
  contrast : ModelWeightEntry
  brightness : ModelWeightEntry
  saturation : ModelWeightEntry
  noise : ModelWeightEntry
  composition : ModelWeightEntry

/-- The constant weights assigned in the constructor. -/
def modelWeights : ModelWeights :=
  { sharpness := ⟨0.25, 0.1⟩
    contrast := ⟨0.2, 0.05⟩
    brightness := ⟨0.15, 0⟩
    saturation := ⟨0.1, 0⟩
    noise := ⟨-0.15, 0⟩
    composition := ⟨0.15, 0.05⟩ }

/-- calculateTechnicalScore: the weighted sum over the five metrics plus
the two 0.1 bonuses, clamped to the unit interval.  The blur bonus tests
overallBlurScore > 0.7 only when a blur analysis is supplied (a NaN score
fails the test); the exposure bonus tests optimalExposure. -/
def calculateTechnicalScore (m : ImageMetrics) (blur : Option BlurAnalysisResult)
    (cba : Option CBAnalysis) : ℚ :=
  let base :=
    m.sharpness * modelWeights.sharpness.weight + modelWeights.sharpness.bias
      + m.contrast * modelWeights.contrast.weight + modelWeights.contrast.bias
      + (1 - |m.brightness - (0.5 : ℚ)| * 2) * modelWeights.brightness.weight
        + modelWeights.brightness.bias
      + m.saturation * modelWeights.saturation.weight + modelWeights.saturation.bias
      + (1 - m.noise) * |modelWeights.noise.weight| + modelWeights.noise.bias
  let withBlur :=
    if (match blur with
        | some ba => optGT ba.overallBlurScore (0.7 : ℚ)
        | none => false) then base + (0.1 : ℚ) else base
  let withExp :=
    if (match cba with
        | some c => c.exposureAnalysis.optimalExposure
        | none => false) then withBlur + (0.1 : ℚ) else withBlur
  clamp01 withExp

/-- calculateAestheticScore: base 0.5 plus the four weighted placeholder
draws, clamped. -/
def aestheticScoreQ (rand : Nat → ℚ) : ℚ :=
  clamp01 ((0.5 : ℚ)
    + (rand 0 * (0.3 : ℚ) + (0.2 : ℚ)) * (0.3 : ℚ)
    + (rand 1 * (0.3 : ℚ) + (0.2 : ℚ)) * (0.2 : ℚ)
    + (rand 2 * (0.3 : ℚ) + (0.2 : ℚ)) * (0.2 : ℚ)
    + (rand 3 * (0.3 : ℚ) + (0.2 : ℚ)) * (0.3 : ℚ))

/-- calculateCompositionScore: mean of the three placeholder draws. -/
def compositionScoreQ (rand : Nat → ℚ) : ℚ :=
  ((rand 4 * (0.5 : ℚ) + (0.25 : ℚ)) + (rand 5 * (0.5 : ℚ) + (0.25 : ℚ))
    + (rand 6 * (0.5 : ℚ) + (0.25 : ℚ))) / 3

/-- The five-level quality class of the classifier. -/
inductive QualityClass where
  | excellent
  | good
  | fair
  | poor
  | veryPoor
deriving DecidableEq, Repr

/-- The feature fields consumed by prediction and confidence. -/
structure FeatureScores where
  aestheticScore : ℚ
  technicalScore : ℚ
  compositionScore : ℚ
  professionalGrade : Bool
deriving DecidableEq, Repr

/-- extractImageFeatures, restricted to the fields used downstream. -/
def extractFeatures (rand : Nat → ℚ) (m : ImageMetrics) (blur : Option BlurAnalysisResult)
    (cba : Option CBAnalysis) : FeatureScores :=
  let a := aestheticScoreQ rand
  let t := calculateTechnicalScore m blur cba
  { aestheticScore := a
    technicalScore := t
    compositionScore := compositionScoreQ rand
    professionalGrade := decide ((0.8 : ℚ) < t) && decide ((0.7 : ℚ) < a) }

/-- The overall score combined from the three feature scores. -/
def overallScoreF (f : FeatureScores) : ℚ :=
  f.technicalScore * (0.4 : ℚ) + f.aestheticScore * (0.3 : ℚ) + f.compositionScore * (0.3 : ℚ)

/-- predictQualityClass. -/
def predictQualityClass (f : FeatureScores) : QualityClass :=
  let o := overallScoreF f
  if (0.9 : ℚ) ≤ o ∧ f.professionalGrade then QualityClass.excellent
  else if (0.75 : ℚ) ≤ o then QualityClass.good
  else if (0.5 : ℚ) ≤ o then QualityClass.fair
  else if (0.25 : ℚ) ≤ o then QualityClass.poor
  else QualityClass.veryPoor

/-- calculateClassificationConfidence: base 0.8, +0.1 for extreme overall
scores, -0.2 for borderline ones, clamped to [0.3, 0.95]. -/
def classificationConfidence (f : FeatureScores) : ℚ :=
  let o := overallScoreF f
  let c1 := if (0.8 : ℚ) < o ∨ o < (0.3 : ℚ) then (0.8 : ℚ) + (0.1 : ℚ) else (0.8 : ℚ)
  let c2 := if (0.45 : ℚ) < o ∧ o < (0.55 : ℚ) then c1 - (0.2 : ℚ) else c1
  jsMax (0.3 : ℚ) (jsMin (0.95 : ℚ) c2)

/-- classifyImage, restricted to the class and confidence it returns. -/
def classifyImage (rand : Nat → ℚ) (m : ImageMetrics) (blur : Option BlurAnalysisResult)
    (cba : Option CBAnalysis) : QualityClass × ℚ :=
  let f := extractFeatures rand m blur cba
  (predictQualityClass f, classificationConfidence f)

/-! ### IssueDetector and QualityAggregator (ImageAnalyzer) -/

/-- The issue kinds declared by QualityIssue, including the never-emitted
compression kind. -/
inductive IssueType where
  | blur
  | contrast
  | brightness
  | noise
  | compression
deriving DecidableEq, Repr

/-- Issue severities. -/
inductive Severity where
  | low
  | medium
  | high
deriving DecidableEq, Repr

/-- A quality issue; the description is a fixed format string computed
from the same deterministic fields and is elided. -/
structure QualityIssue where
  type : IssueType
  severity : Severity
  score : ℚ
deriving DecidableEq, Repr

/-- The blur issue of detectIssues: emitted when a blur analysis is
present and its overall score is below 0.5 (false for a NaN score). -/
def blurIssue (blur : Option BlurAnalysisResult) : List QualityIssue :=
  match blur with
  | some ba =>
      match ba.overallBlurScore with
      | some s =>
          if s < (0.5 : ℚ) then
            [⟨IssueType.blur,
              if s < (0.2 : ℚ) then Severity.high
              else if s < (0.35 : ℚ) then Severity.medium else Severity.low,
              1 - s⟩]
          else []
      | none => []
  | none => []

/-- The advanced contrast issue: mean of global and local contrast below
0.3. -/
def contrastIssueAdv (c : CBAnalysis) : List QualityIssue :=
  let avg := (c.contrast.globalContrast + c.contrast.localContrast) / 2
  if avg < (0.3 : ℚ) then
    [⟨IssueType.contrast,
      if avg < (0.1 : ℚ) then Severity.high
      else if avg < (0.2 : ℚ) then Severity.medium else Severity.low,
      1 - avg⟩]
  else []

/-- The advanced brightness issue: emitted when the exposure level is not
optimal, severity high when either clipping fraction exceeds 0.1. -/
def brightnessIssueAdv (c : CBAnalysis) : List QualityIssue :=
  if c.brightness.exposureLevel ≠ ExposureLevel.optimal then
    [⟨IssueType.brightness,
      if (0.1 : ℚ) < c.exposureAnalysis.clippedShadows
          ∨ (0.1 : ℚ) < c.exposureAnalysis.clippedHighlights then Severity.high
      else Severity.medium,
      if c.brightness.exposureLevel = ExposureLevel.underexposed then
        1 - c.brightness.averageBrightness * 2
      else (c.brightness.averageBrightness - (0.5 : ℚ)) * 2⟩]
  else []

/-- The fallback contrast issue from the raw metric. -/
def contrastIssueBasic (m : ImageMetrics) : List QualityIssue :=
  if m.contrast < (0.3 : ℚ) then
    [⟨IssueType.contrast,
      if m.contrast < (0.1 : ℚ) then Severity.high
      else if m.contrast < (0.2 : ℚ) then Severity.medium else Severity.low,
      1 - m.contrast⟩]
  else []

/-- The fallback brightness issue from the raw metric. -/
def brightnessIssueBasic (m : ImageMetrics) : List QualityIssue :=
  if m.brightness < (0.2 : ℚ) ∨ (0.8 : ℚ) < m.brightness then
    [⟨IssueType.brightness,
      if m.brightness < (0.1 : ℚ) ∨ (0.9 : ℚ) < m.brightness then Severity.high
      else if m.brightness < (0.15 : ℚ) ∨ (0.85 : ℚ) < m.brightness then Severity.medium
      else Severity.low,
      if m.brightness < (0.2 : ℚ) then 1 - m.brightness * 5
      else (m.brightness - (0.8 : ℚ)) * 5⟩]
  else []

/-- The noise issue. -/
def noiseIssue (m : ImageMetrics) : List QualityIssue :=
  if (0.4 : ℚ) < m.noise then
    [⟨IssueType.noise,
      if (0.7 : ℚ) < m.noise then Severity.high
      else if (0.55 : ℚ) < m.noise then Severity.medium else Severity.low,
      m.noise⟩]
  else []

/-- ImageAnalyzer.detectIssues: blur issue, then either the advanced or
the fallback contrast/brightness issues, then the noise issue, in source
push order. -/
def detectIssues (m : ImageMetrics) (blur : Option BlurAnalysisResult)
    (cba : Option CBAnalysis) : List QualityIssue :=
  blurIssue blur
    ++ (match cba with
        | some c => contrastIssueAdv c ++ brightnessIssueAdv c
        | none => contrastIssueBasic m ++ brightnessIssueBasic m)
    ++ noiseIssue m

/-- The three-level verdict. -/
inductive OverallQuality where
  | good
  | fair
  | poor
deriving DecidableEq, Repr

/-- ImageAnalyzer.determineOverallQuality: the classification, when
present, decides alone; otherwise the severity counts decide. -/
def determineOverallQuality (issues : List QualityIssue)
    (ai : Option QualityClass) : OverallQuality :=
  match ai with
  | some QualityClass.excellent => OverallQuality.good
  | some QualityClass.good => OverallQuality.good
  | some QualityClass.fair => OverallQuality.fair
  | some QualityClass.poor => OverallQuality.poor
  | some QualityClass.veryPoor => OverallQuality.poor
  | none =>
      let hi := (issues.filter (fun i => i.severity = Severity.high)).length
      let med := (issues.filter (fun i => i.severity = Severity.medium)).length
      if 0 < hi ∨ 2 < med then OverallQuality.poor
      else if 0 < med ∨ 2 < issues.length then OverallQuality.fair
      else OverallQuality.good

/-- ImageAnalyzer.calculateConfidence.  The aiClassification truthiness
test is modelled by the Option: the classifier confidence is clamped to
at least 0.3 and is therefore never the falsy 0. -/
def calculateConfidence (m : ImageMetrics) (issues : List QualityIssue)
    (aiConf : Option ℚ) : ℚ :=
  let c0 := match aiConf with
    | some c => ((0.8 : ℚ) + c) / 2
    | none => (0.8 : ℚ)
  let c1 := if m.brightness < (0.1 : ℚ) ∨ (0.9 : ℚ) < m.brightness then c0 - (0.1 : ℚ) else c0
  let c2 := if m.contrast < (0.1 : ℚ) then c1 - (0.1 : ℚ) else c1
  let c3 := if m.sharpness < (0.05 : ℚ) then c2 - (0.1 : ℚ) else c2
  let c4 := if 3 < issues.length then c3 - (0.05 : ℚ) else c3
  jsMax (0.3 : ℚ) (jsMin (0.95 : ℚ) c4)

/-- The full result assembled by analyzeImage after the buffer has been
decoded (the canvas/decode plumbing is the excluded collaborator). -/
structure AnalysisResult where
  metrics : ImageMetrics
  blurAnalysis : BlurAnalysisResult
  contrastBrightnessAnalysis : CBAnalysis
  aiQualityClass : QualityClass
  aiConfidence : ℚ
  issues : List QualityIssue
  overallQuality : OverallQuality
  confidence : ℚ

/-- The analysis pipeline of ImageAnalyzer.analyzeImage on a decoded
buffer: metrics, blur, contrast/brightness, classification, issues,
verdict, confidence. -/
def analyze (sq : ℚ → ℚ) (rand : Nat → ℚ) (buf : ImageData) : AnalysisResult :=
  let m := calculateMetrics sq buf
  let ba := analyzeBlur sq buf
  let cba := analyzeContrastBrightness sq buf
  let ai := classifyImage rand m (some ba) (some cba)
  let issues := detectIssues m (some ba) (some cba)
  { metrics := m
    blurAnalysis := ba
    contrastBrightnessAnalysis := cba
    aiQualityClass := ai.1
    aiConfidence := ai.2
    issues := issues
    overallQuality := determineOverallQuality issues (some ai.1)
    confidence := calculateConfidence m issues (some ai.2) }

/-! ### Concrete buffers used by the claims -/

/-- A uniform solid-colour RGBA buffer (alpha 255). -/
def uniformBuf (w h r g b : Nat) : ImageData :=
  ⟨w, h, fun i =>
    if i % 4 = 0 then r else if i % 4 = 1 then g else if i % 4 = 2 then b else 255⟩

/-- The 64x64 uniform mid-gray buffer of the spec scenario. -/
def gray64 : ImageData := uniformBuf 64 64 128 128 128

/-- A 4x4 uniform mid-gray buffer. -/
def gray4 : ImageData := uniformBuf 4 4 128 128 128

/-- A 2x2 all-black buffer (smaller than 3 pixels in both dimensions). -/
def black2 : ImageData := uniformBuf 2 2 0 0 0

/-- A 1x1 all-black buffer. -/
def black1 : ImageData := uniformBuf 1 1 0 0 0

/-- The zero function standing in for Math.sqrt in closed evaluations
(every sqrt argument is 0 on the uniform buffers where it is used). -/
def sqZero : ℚ → ℚ := fun _ => 0

/-- The all-zero placeholder stream. -/
def randZero : Nat → ℚ := fun _ => 0

/-- The constant one-half placeholder stream. -/
def randHalf : Nat → ℚ := fun _ => (0.5 : ℚ)

/-- Well-formedness of a decoded buffer: every byte is an actual byte.
Dimension positivity is stated separately where needed. -/
def WellFormed (buf : ImageData) : Prop :=
  ∀ i, buf.data i ≤ 255

/-- The common luminance value of a uniform (r, g, b) buffer. -/
def uLum (r g b : Nat) : ℚ :=
  (299 * r + 587 * g + 114 * b) / 1000

/-- The luminance histogram bin of a uniform (r, g, b) buffer. -/
def uBin (r g b : Nat) : Nat :=
  (round (uLum r g b)).toNat

/-- A histogram with a single spike: every pixel in one bin. -/
def spikeHist (v0 n : Nat) : Nat → Nat :=
  fun v => if v = v0 then n else 0

/-- Claim C2 technical-score formula, written from the claim text: it
uses 0.15 as the saturation coefficient. -/
def claimTechnicalScore (m : ImageMetrics) (blur : Option BlurAnalysisResult)
    (cba : Option CBAnalysis) : ℚ :=
  let base := (0.25 : ℚ) * m.sharpness + (0.1 : ℚ) + (0.2 : ℚ) * m.contrast + (0.05 : ℚ)
    + (0.15 : ℚ) * (1 - |m.brightness - (0.5 : ℚ)| * 2) + (0.15 : ℚ) * m.saturation
    + (0.15 : ℚ) * (1 - m.noise)
  let withBlur :=
    if (match blur with
        | some ba => optGT ba.overallBlurScore (0.7 : ℚ)
        | none => false) then base + (0.1 : ℚ) else base
  let withExp :=
    if (match cba with
        | some c => c.exposureAnalysis.optimalExposure
        | none => false) then withBlur + (0.1 : ℚ) else withBlur
  jsMax 0 (jsMin 1 withExp)

/-- Claim C8 verdict formula, written from the claim text: a present
classification maps excellent/good to Good, fair to Fair, poor/very_poor
to Poor; otherwise Poor on at least one high or more than two medium
issues, Fair on at least one medium issue or more than two issues in
total, else Good. -/
def specOverallQuality (issues : List QualityIssue) (ai : Option QualityClass) : OverallQuality :=
  match ai with
  | some qc =>
      match qc with
      | QualityClass.excellent => OverallQuality.good
      | QualityClass.good => OverallQuality.good
      | QualityClass.fair => OverallQuality.fair
      | QualityClass.poor => OverallQuality.poor
      | QualityClass.veryPoor => OverallQuality.poor
  | none =>
      if 1 ≤ (issues.filter (fun i => i.severity = Severity.high)).length
          ∨ 2 < (issues.filter (fun i => i.severity = Severity.medium)).length then
        OverallQuality.poor
      else if 1 ≤ (issues.filter (fun i => i.severity = Severity.medium)).length
          ∨ 2 < issues.length then
        OverallQuality.fair
      else OverallQuality.good

/-! ### Helper lemmas -/

/-- jsMin agrees with the lattice minimum on rationals. -/
theorem jsMin_eq (a b : ℚ) : jsMin a b = min a b := by
  unfold jsMin
  split
  · exact (min_eq_left (by assumption)).symm
  · exact (min_eq_right (le_of_not_le (by assumption))).symm

/-- jsMax agrees with the lattice maximum on rationals. -/
theorem jsMax_eq (a b : ℚ) : jsMax a b = max a b := by
  unfold jsMax
  split
  · exact (max_eq_right (by assumption)).symm
  · exact (max_eq_left (le_of_not_le (by assumption))).symm

/-- The confidence clamp lands in [0.3, 0.95] whatever its input. -/
theorem clampConf_bounds (c : ℚ) :
    (0.3 : ℚ) ≤ jsMax (0.3 : ℚ) (jsMin (0.95 : ℚ) c)
      ∧ jsMax (0.3 : ℚ) (jsMin (0.95 : ℚ) c) ≤ (0.95 : ℚ) := by
  rw [jsMax_eq, jsMin_eq]
  exact ⟨le_max_left _ _, max_le (by norm_num) (min_le_left _ _)⟩

/-- The unit clamp lands in [0, 1] whatever its input. -/
theorem clamp01_bounds (x : ℚ) : 0 ≤ clamp01 x ∧ clamp01 x ≤ 1 := by
  unfold clamp01
  rw [jsMax_eq, jsMin_eq]
  exact ⟨le_max_left _ _, max_le (by norm_num) (min_le_left _ _)⟩

/-- The Laplacian block variance is a mean of squares, hence nonnegative. -/
theorem lapVar_nonneg (buf : ImageData) : 0 ≤ lapVar buf := by
  unfold lapVar
  apply div_nonneg
  · exact Finset.sum_nonneg (fun p _ => sq_nonneg _)
  · exact Nat.cast_nonneg _

/-- Byte fetch of a uniform buffer. -/
theorem uniformBuf_data (w h r g b i : Nat) :
    (uniformBuf w h r g b).data i
      = if i % 4 = 0 then r else if i % 4 = 1 then g else if i % 4 = 2 then b else 255 := rfl

/-- Luminance of any pixel of a uniform buffer. -/
theorem gray_uniform (w h r g b k : Nat) :
    gray (uniformBuf w h r g b) (4 * k) = uLum r g b := by
  have h0 : (4 * k) % 4 = 0 := by omega
  have h1 : (4 * k + 1) % 4 = 1 := by omega
  have h2 : (4 * k + 2) % 4 = 2 := by omega
  simp [gray, uniformBuf_data, h0, h1, h2, uLum]
  ring

/-- Coordinate form of the previous lemma. -/
theorem grayXY_uniform (w h r g b x y : Nat) :
    grayXY (uniformBuf w h r g b) x y = uLum r g b := by
  unfold grayXY
  rw [Nat.mul_comm]
  exact gray_uniform w h r g b _

/-- The Laplacian response vanishes on a uniform buffer. -/
theorem lapAt_uniform (w h r g b x y : Nat) :
    lapAt (uniformBuf w h r g b) x y = 0 := by
  simp [lapAt, grayXY_uniform]
  ring

/-- Both Laplacian passes vanish on a uniform buffer. -/
theorem lapAbsSum_uniform (w h r g b : Nat) :
    lapAbsSum (uniformBuf w h r g b) = 0 := by
  unfold lapAbsSum
  refine Finset.sum_eq_zero (fun p _ => ?_)
  simp [lapAt_uniform]

/-- The Laplacian mean vanishes on a uniform buffer. -/
theorem lapMean_uniform (w h r g b : Nat) :
    lapMean (uniformBuf w h r g b) = 0 := by
  simp [lapMean, lapAbsSum_uniform]

/-- The Laplacian variance vanishes on a uniform buffer. -/
theorem lapVar_uniform (w h r g b : Nat) :
    lapVar (uniformBuf w h r g b) = 0 := by
  unfold lapVar
  rw [Finset.sum_eq_zero, zero_div]
  intro p _
  simp [lapAt_uniform, lapMean_uniform]

/-- The Laplacian score of a uniform buffer with interior pixels is 0. -/
theorem laplacianScore_uniform (w h r g b : Nat)
    (hc : interiorCount (uniformBuf w h r g b) ≠ 0) :
    laplacianScore (uniformBuf w h r g b) = some 0 := by
  simp [laplacianScore, hc, lapVar_uniform]

/-- extractBlock of a uniform buffer is the uniform buffer of the block
geometry. -/
theorem extractBlock_uniform (w h r g b sx sy bw bh : Nat) :
    extractBlock (uniformBuf w h r g b) sx sy bw bh = uniformBuf bw bh r g b := by
  unfold extractBlock uniformBuf
  congr 1
  funext ti
  have hm : (((sy + ti / 4 / bw) * w + (sx + ti / 4 % bw)) * 4 + ti % 4) % 4 = ti % 4 := by
    omega
  simp [hm]

/-- A uniform block always produces the maximal-blur focus region. -/
theorem regionFor_uniform (w h r g b x y : Nat) :
    regionFor (uniformBuf w h r g b) x y
      = [⟨x, y, 32, 32, 1, BlurType.focus⟩] := by
  unfold regionFor
  have hc : interiorCount (uniformBuf 32 32 r g b) ≠ 0 := by
    have : (1, 1) ∈ interiorPx (uniformBuf 32 32 r g b) := by
      simp [interiorPx, uniformBuf, Finset.mem_product]
    unfold interiorCount
    exact Finset.card_ne_zero_of_mem this
  rw [extractBlock_uniform, laplacianScore_uniform 32 32 r g b hc]
  norm_num [jsMin]

/-- The region list of the 64x64 uniform gray buffer is a single region
at the origin: the strict loop bound y < 64 - 32 stops after y = 0. -/
theorem detectBlurRegions_gray64 :
    detectBlurRegions gray64 = [⟨0, 0, 32, 32, 1, BlurType.focus⟩] := by
  have hbs : blockStarts (64 - 32) = [0] := by decide
  show detectBlurRegions (uniformBuf 64 64 128 128 128) = _
  unfold detectBlurRegions
  simp only [uniformBuf]
  simp only [hbs, List.flatMap_cons, List.flatMap_nil, List.append_nil]
  exact regionFor_uniform 64 64 128 128 128 0 0

/-- Membership in blockStarts is the loop bound and the stride. -/
theorem mem_blockStarts (v limit : Nat) :
    v ∈ blockStarts limit ↔ v < limit ∧ v % 32 = 0 := by
  simp [blockStarts, List.mem_filter, List.mem_range]

/-- Every emitted blur region comes from a 32-aligned block strictly
inside the image, with score and type derived from a nonnegative block
variance below 500. -/
theorem region_shape (buf : ImageData) (r : BlurRegion)
    (hr : r ∈ detectBlurRegions buf) :
    ∃ v : ℚ, 0 ≤ v ∧ v < 500
      ∧ r.width = 32 ∧ r.height = 32 ∧ r.x % 32 = 0 ∧ r.y % 32 = 0
      ∧ r.x + 32 < buf.width ∧ r.y + 32 < buf.height
      ∧ r.blurScore = 1 - jsMin (v / 1000) 1
      ∧ r.type = (if v < 200 then BlurType.focus else BlurType.motion) := by
  unfold detectBlurRegions at hr
  rw [List.mem_flatMap] at hr
  obtain ⟨y, hy, hr⟩ := hr
  rw [List.mem_flatMap] at hr
  obtain ⟨x, hx, hr⟩ := hr
  rw [mem_blockStarts] at hy hx
  unfold regionFor at hr
  revert hr
  cases hl : laplacianScore (extractBlock buf x y 32 32) with
  | none => intro hr; exact absurd hr (List.not_mem_nil r)
  | some v =>
      intro hr
      have hv0 : 0 ≤ v := by
        unfold laplacianScore at hl
        by_cases hc : interiorCount (extractBlock buf x y 32 32) = 0
        · simp [hc] at hl
        · simp [hc] at hl
          exact hl ▸ lapVar_nonneg _
      by_cases hv : v < 500
      · simp only [hv, if_true, List.mem_singleton] at hr
        subst hr
        refine ⟨v, hv0, hv, rfl, rfl, hx.2, hy.2, ?_, ?_, rfl, rfl⟩
        · show x + 32 < buf.width
          omega
        · show y + 32 < buf.height
          omega
      · simp [hv] at hr

/-- C1 (corrected): blur-region detection scans 32x32 blocks starting at
(0,0) in raster order, but the strict loop bounds y < height-32 and
x < width-32 also drop blocks flush with the right or bottom edge, so
every emitted region is 32-aligned and lies strictly inside the image
with at least one pixel to spare; consequently the 64x64 uniform
mid-gray buffer yields exactly one blur region, at (0,0), not four. -/
theorem c1_block_partition :
    (∀ (sq : ℚ → ℚ) (buf : ImageData),
        (analyzeBlur sq buf).blurRegions.Forall (fun r =>
          r.width = 32 ∧ r.height = 32 ∧ r.x % 32 = 0 ∧ r.y % 32 = 0
            ∧ r.x + 32 < buf.width ∧ r.y + 32 < buf.height))
      ∧ (analyzeBlur sqZero gray64).blurRegions = [⟨0, 0, 32, 32, 1, BlurType.focus⟩] := by
  constructor
  · intro sq buf
    rw [List.forall_iff_forall_mem]
    intro r hr
    have hRegions : (analyzeBlur sq buf).blurRegions = detectBlurRegions buf := rfl
    rw [hRegions] at hr
    obtain ⟨v, _, _, hw, hh, hx, hy, hxw, hyh, _, _⟩ := region_shape buf r hr
    exact ⟨hw, hh, hx, hy, hxw, hyh⟩
  · exact detectBlurRegions_gray64

/-- C1 counterexample: on the 64x64 uniform mid-gray buffer analyzeBlur
returns one blur region, not the four the claim demands. -/
theorem c1_counterexample :
    (analyzeBlur sqZero gray64).blurRegions.length = 1
      ∧ (analyzeBlur sqZero gray64).blurRegions.length ≠ 4 := by
  have h : (analyzeBlur sqZero gray64).blurRegions = [⟨0, 0, 32, 32, 1, BlurType.focus⟩] :=
    detectBlurRegions_gray64
  rw [h]
  exact ⟨rfl, by decide⟩

/-- C9 (confirmed): every emitted blur region has a blur score in
(1/2, 1] and is classified focus or motion, never gaussian: regions are
emitted only for block variance v with 0 <= v < 500, giving score
1 - v/1000. -/
theorem c9_region_invariants : ∀ (sq : ℚ → ℚ) (buf : ImageData),
    (analyzeBlur sq buf).blurRegions.Forall (fun r =>
      (1/2 : ℚ) < r.blurScore ∧ r.blurScore ≤ 1
        ∧ (r.type = BlurType.focus ∨ r.type = BlurType.motion)) := by
  intro sq buf
  rw [List.forall_iff_forall_mem]
  intro r hr
  have hRegions : (analyzeBlur sq buf).blurRegions = detectBlurRegions buf := rfl
  rw [hRegions] at hr
  obtain ⟨v, hv0, hv500, _, _, _, _, _, _, hscore, htype⟩ := region_shape buf r hr
  have hmin : jsMin (v / 1000) 1 = v / 1000 := by
    unfold jsMin
    rw [if_pos]
    linarith
  refine ⟨?_, ?_, ?_⟩
  · rw [hscore, hmin]
    linarith
  · rw [hscore, hmin]
    linarith
  · rw [htype]
    by_cases hv : v < 200
    · exact Or.inl (if_pos hv)
    · exact Or.inr (if_neg hv)

/-- C2 counterexample: at metrics (0, 0, 1/2, 1, 1) with no blur or
exposure payload the code computes 0.4 while the claimed formula (with
saturation coefficient 0.15) gives 0.45: the code multiplies saturation
by its model weight 0.1, not 0.15. -/
theorem c2_counterexample :
    calculateTechnicalScore ⟨0, 0, 1/2, 1, 1⟩ none none = (2/5 : ℚ)
      ∧ claimTechnicalScore ⟨0, 0, 1/2, 1, 1⟩ none none = (9/20 : ℚ)
      ∧ calculateTechnicalScore ⟨0, 0, 1/2, 1, 1⟩ none none
          ≠ claimTechnicalScore ⟨0, 0, 1/2, 1, 1⟩ none none := by
  have h1 : calculateTechnicalScore ⟨0, 0, 1/2, 1, 1⟩ none none = (2/5 : ℚ) := by
    norm_num [calculateTechnicalScore, modelWeights, clamp01, jsMin, jsMax]
  have h2 : claimTechnicalScore ⟨0, 0, 1/2, 1, 1⟩ none none = (9/20 : ℚ) := by
    norm_num [claimTechnicalScore, jsMin, jsMax]
  refine ⟨h1, h2, ?_⟩
  rw [h1, h2]
  norm_num

/-- C2 (corrected): the technical score is the claimed weighted sum
except that the saturation coefficient is 0.1 (the constructor weight),
not 0.15: 0.25*sharpness + 0.1 + 0.2*contrast + 0.05 +
0.15*(1-|brightness-0.5|*2) + 0.1*saturation + 0.15*(1-noise), plus 0.1
when the supplied blur score exceeds 0.7 and 0.1 when exposure is
optimal, clamped to [0,1]. -/
theorem c2_technical_score :
    ∀ (m : ImageMetrics) (blur : Option BlurAnalysisResult) (cba : Option CBAnalysis),
      calculateTechnicalScore m blur cba
        = jsMax 0 (jsMin 1
            ((0.25 : ℚ) * m.sharpness + (0.1 : ℚ) + (0.2 : ℚ) * m.contrast + (0.05 : ℚ)
              + (0.15 : ℚ) * (1 - |m.brightness - (0.5 : ℚ)| * 2)
              + (0.1 : ℚ) * m.saturation + (0.15 : ℚ) * (1 - m.noise)
              + (if (match blur with
                    | some ba => optGT ba.overallBlurScore (0.7 : ℚ)
                    | none => false) then (0.1 : ℚ) else 0)
              + (if (match cba with
                    | some c => c.exposureAnalysis.optimalExposure
                    | none => false) then (0.1 : ℚ) else 0))) := by
  intro m blur cba
  have habs : |(-0.15 : ℚ)| = (0.15 : ℚ) := by
    rw [abs_of_neg (by norm_num)]
    norm_num
  unfold calculateTechnicalScore clamp01 modelWeights
  simp only [habs]
  split <;> split <;> (congr 1; ring_nf)

/-- C6: a 2x2 buffer has no interior pixels, so the source divides 0 by
0: the overall blur score is NaN (modelled none), the blur type falls
through to gaussian, and the confidence stays 0.8.  There is no
documented fallback result. -/
theorem c6_small_buffer_nan :
    interiorCount black2 = 0
      ∧ (analyzeBlur sqZero black2).overallBlurScore = none
      ∧ (analyzeBlur sqZero black2).blurType = BlurType.gaussian
      ∧ (analyzeBlur sqZero black2).blurRegions = []
      ∧ (analyzeBlur sqZero black2).confidence = some (0.8 : ℚ) := by
  have hIC : interiorCount black2 = 0 := by decide
  have hIP : interiorPx black2 = ∅ := by decide
  have hLap : laplacianScore black2 = none := by simp [laplacianScore, hIC]
  have hSob : sobelScore sqZero black2 = none := by simp [sobelScore, hIC]
  have hScore :
      combineBlurScores (laplacianScore black2) (sobelScore sqZero black2)
        (fftSharpness sqZero black2) = none := by
    rw [hLap, hSob]
    rfl
  have hDir : ∀ dx dy, directionalBlur black2 dx dy = 0 := by
    intro dx dy
    unfold directionalBlur dirPairs
    rw [hIP]
    simp
  have hRegions : detectBlurRegions black2 = [] := rfl
  have hT : (analyzeBlur sqZero black2).blurType
      = detectBlurType black2 (combineBlurScores (laplacianScore black2)
          (sobelScore sqZero black2) (fftSharpness sqZero black2)) := rfl
  have hC : (analyzeBlur sqZero black2).confidence
      = calcBlurConfidence (combineBlurScores (laplacianScore black2)
          (sobelScore sqZero black2) (fftSharpness sqZero black2))
          (detectBlurRegions black2) := rfl
  refine ⟨hIC, hScore, ?_, hRegions, ?_⟩
  · rw [hT, hScore]
    unfold detectBlurType
    rw [hDir, hDir, hDir]
    norm_num [optGT, optLT, jsMax]
  · rw [hC, hScore, hRegions]
    norm_num [calcBlurConfidence, optLT, optGT, jsMin, jsMax]

/-- C8 (confirmed): a present classification decides the verdict alone
(excellent/good to Good, fair to Fair, poor/very_poor to Poor, whatever
the issue list), and without one the severity counts decide exactly as
the spec describes. -/
theorem c8_overall_quality :
    (∀ (issues : List QualityIssue) (ai : Option QualityClass),
        determineOverallQuality issues ai = specOverallQuality issues ai)
      ∧ (∀ (issues issues2 : List QualityIssue) (qc : QualityClass),
        determineOverallQuality issues (some qc) = determineOverallQuality issues2 (some qc)) := by
  constructor
  · intro issues ai
    cases ai with
    | some qc => cases qc <;> rfl
    | none => rfl
  · intro issues issues2 qc
    cases qc <;> rfl

/-- The blur issue list has at most one element. -/
theorem blurIssue_length (blur : Option BlurAnalysisResult) : (blurIssue blur).length ≤ 1 := by
  unfold blurIssue
  repeat' split
  all_goals simp

/-- Every blur issue is tagged blur. -/
theorem mem_blurIssue {blur : Option BlurAnalysisResult} {i : QualityIssue}
    (hi : i ∈ blurIssue blur) : i.type = IssueType.blur := by
  unfold blurIssue at hi
  repeat' split at hi
  all_goals first
  | (rw [List.mem_singleton] at hi; subst hi; rfl)
  | simp at hi

/-- The advanced contrast issue list has at most one element. -/
theorem contrastIssueAdv_length (c : CBAnalysis) : (contrastIssueAdv c).length ≤ 1 := by
  by_cases h : (c.contrast.globalContrast + c.contrast.localContrast) / 2 < (0.3 : ℚ)
  · simp [contrastIssueAdv, h]
  · simp [contrastIssueAdv, h]

/-- Every advanced contrast issue is tagged contrast. -/
theorem mem_contrastIssueAdv {c : CBAnalysis} {i : QualityIssue}
    (hi : i ∈ contrastIssueAdv c) : i.type = IssueType.contrast := by
  by_cases h : (c.contrast.globalContrast + c.contrast.localContrast) / 2 < (0.3 : ℚ)
  · simp only [contrastIssueAdv, h, if_true, List.mem_singleton] at hi
    subst hi
    rfl
  · simp [contrastIssueAdv, h] at hi

/-- The advanced brightness issue list has at most one element. -/
theorem brightnessIssueAdv_length (c : CBAnalysis) : (brightnessIssueAdv c).length ≤ 1 := by
  unfold brightnessIssueAdv
  repeat' split
  all_goals simp

/-- Every advanced brightness issue is tagged brightness. -/
theorem mem_brightnessIssueAdv {c : CBAnalysis} {i : QualityIssue}
    (hi : i ∈ brightnessIssueAdv c) : i.type = IssueType.brightness := by
  unfold brightnessIssueAdv at hi
  repeat' split at hi
  all_goals first
  | (rw [List.mem_singleton] at hi; subst hi; rfl)
  | simp at hi

/-- The fallback contrast issue list has at most one element. -/
theorem contrastIssueBasic_length (m : ImageMetrics) : (contrastIssueBasic m).length ≤ 1 := by
  unfold contrastIssueBasic
  repeat' split
  all_goals simp

/-- Every fallback contrast issue is tagged contrast. -/
theorem mem_contrastIssueBasic {m : ImageMetrics} {i : QualityIssue}
    (hi : i ∈ contrastIssueBasic m) : i.type = IssueType.contrast := by
  unfold contrastIssueBasic at hi
  repeat' split at hi
  all_goals first
  | (rw [List.mem_singleton] at hi; subst hi; rfl)
  | simp at hi

/-- The fallback brightness issue list has at most one element. -/
theorem brightnessIssueBasic_length (m : ImageMetrics) : (brightnessIssueBasic m).length ≤ 1 := by
  unfold brightnessIssueBasic
  repeat' split
  all_goals simp

/-- Every fallback brightness issue is tagged brightness. -/
theorem mem_brightnessIssueBasic {m : ImageMetrics} {i : QualityIssue}
    (hi : i ∈ brightnessIssueBasic m) : i.type = IssueType.brightness := by
  unfold brightnessIssueBasic at hi
  repeat' split at hi
  all_goals first
  | (rw [List.mem_singleton] at hi; subst hi; rfl)
  | simp at hi

/-- The noise issue list has at most one element. -/
theorem noiseIssue_length (m : ImageMetrics) : (noiseIssue m).length ≤ 1 := by
  unfold noiseIssue
  repeat' split
  all_goals simp

/-- Every noise issue is tagged noise. -/
theorem mem_noiseIssue {m : ImageMetrics} {i : QualityIssue}
    (hi : i ∈ noiseIssue m) : i.type = IssueType.noise := by
  unfold noiseIssue at hi
  repeat' split at hi
  all_goals first
  | (rw [List.mem_singleton] at hi; subst hi; rfl)
  | simp at hi

/-- C10 (confirmed): detectIssues emits at most one issue per type,
never a compression issue, and hence at most 4 issues in total. -/
theorem c10_issue_limits :
    ∀ (m : ImageMetrics) (blur : Option BlurAnalysisResult) (cba : Option CBAnalysis),
      ((detectIssues m blur cba).countP (fun i => decide (i.type = IssueType.blur)) ≤ 1)
        ∧ ((detectIssues m blur cba).countP (fun i => decide (i.type = IssueType.contrast)) ≤ 1)
        ∧ ((detectIssues m blur cba).countP (fun i => decide (i.type = IssueType.brightness)) ≤ 1)
        ∧ ((detectIssues m blur cba).countP (fun i => decide (i.type = IssueType.noise)) ≤ 1)
        ∧ ((detectIssues m blur cba).countP (fun i => decide (i.type = IssueType.compression)) = 0)
        ∧ (detectIssues m blur cba).length ≤ 4 := by
  intro m blur cba
  have hsplit : detectIssues m blur cba
      = blurIssue blur
        ++ ((match cba with
            | some c => contrastIssueAdv c ++ brightnessIssueAdv c
            | none => contrastIssueBasic m ++ brightnessIssueBasic m)
          ++ noiseIssue m) := by
    unfold detectIssues
    rw [List.append_assoc]
  have hmidC : ∀ i ∈ (match cba with
      | some c => contrastIssueAdv c ++ brightnessIssueAdv c
      | none => contrastIssueBasic m ++ brightnessIssueBasic m),
      i.type = IssueType.contrast ∨ i.type = IssueType.brightness := by
    intro i hi
    cases cba with
    | some c =>
        rcases List.mem_append.mp hi with h | h
        · exact Or.inl (mem_contrastIssueAdv h)
        · exact Or.inr (mem_brightnessIssueAdv h)
    | none =>
        rcases List.mem_append.mp hi with h | h
        · exact Or.inl (mem_contrastIssueBasic h)
        · exact Or.inr (mem_brightnessIssueBasic h)
  have hmidLen : (match cba with
      | some c => contrastIssueAdv c ++ brightnessIssueAdv c
      | none => contrastIssueBasic m ++ brightnessIssueBasic m).length ≤ 2 := by
    cases cba with
    | some c =>
        rw [List.length_append]
        have := contrastIssueAdv_length c
        have := brightnessIssueAdv_length c
        omega
    | none =>
        rw [List.length_append]
        have := contrastIssueBasic_length m
        have := brightnessIssueBasic_length m
        omega
  have hmidCountC : (match cba with
      | some c => contrastIssueAdv c ++ brightnessIssueAdv c
      | none => contrastIssueBasic m ++ brightnessIssueBasic m).countP
        (fun (i : QualityIssue) => decide (i.type = IssueType.contrast)) ≤ 1 := by
    cases cba with
    | some c =>
        rw [List.countP_append]
        have h1 : (contrastIssueAdv c).countP (fun i => decide (i.type = IssueType.contrast))
            ≤ (contrastIssueAdv c).length := List.countP_le_length _
        have h2 : (brightnessIssueAdv c).countP (fun i => decide (i.type = IssueType.contrast))
            = 0 := by
          rw [List.countP_eq_zero]
          intro a ha
          simp [mem_brightnessIssueAdv ha]
        have := contrastIssueAdv_length c
        omega
    | none =>
        rw [List.countP_append]
        have h1 : (contrastIssueBasic m).countP (fun i => decide (i.type = IssueType.contrast))
            ≤ (contrastIssueBasic m).length := List.countP_le_length _
        have h2 : (brightnessIssueBasic m).countP (fun i => decide (i.type = IssueType.contrast))
            = 0 := by
          rw [List.countP_eq_zero]
          intro a ha
          simp [mem_brightnessIssueBasic ha]
        have := contrastIssueBasic_length m
        omega
  have hmidCountB : (match cba with
      | some c => contrastIssueAdv c ++ brightnessIssueAdv c
      | none => contrastIssueBasic m ++ brightnessIssueBasic m).countP
        (fun (i : QualityIssue) => decide (i.type = IssueType.brightness)) ≤ 1 := by
    cases cba with
    | some c =>
        rw [List.countP_append]
        have h1 : (brightnessIssueAdv c).countP (fun i => decide (i.type = IssueType.brightness))
            ≤ (brightnessIssueAdv c).length := List.countP_le_length _
        have h2 : (contrastIssueAdv c).countP (fun i => decide (i.type = IssueType.brightness))
            = 0 := by
          rw [List.countP_eq_zero]
          intro a ha
          simp [mem_contrastIssueAdv ha]
        have := brightnessIssueAdv_length c
        omega
    | none =>
        rw [List.countP_append]
        have h1 : (brightnessIssueBasic m).countP (fun i => decide (i.type = IssueType.brightness))
            ≤ (brightnessIssueBasic m).length := List.countP_le_length _
        have h2 : (contrastIssueBasic m).countP (fun i => decide (i.type = IssueType.brightness))
            = 0 := by
          rw [List.countP_eq_zero]
          intro a ha
          simp [mem_contrastIssueBasic ha]
        have := brightnessIssueBasic_length m
        omega
  have hBlurLen := blurIssue_length blur
  have hNoiseLen := noiseIssue_length m
  have hCountMidZero : ∀ t, t ≠ IssueType.contrast → t ≠ IssueType.brightness →
      (match cba with
        | some c => contrastIssueAdv c ++ brightnessIssueAdv c
        | none => contrastIssueBasic m ++ brightnessIssueBasic m).countP
          (fun (i : QualityIssue) => decide (i.type = t)) = 0 := by
    intro t htc htb
    rw [List.countP_eq_zero]
    intro a ha
    rcases hmidC a ha with h | h <;> simp [h, htc.symm, htb.symm]
  rw [hsplit]
  refine ⟨?_, ?_, ?_, ?_, ?_, ?_⟩
  · rw [List.countP_append, List.countP_append]
    have h1 : (blurIssue blur).countP (fun i => decide (i.type = IssueType.blur))
        ≤ (blurIssue blur).length := List.countP_le_length _
    have h2 := hCountMidZero IssueType.blur (by simp) (by simp)
    have h3 : (noiseIssue m).countP (fun i => decide (i.type = IssueType.blur)) = 0 := by
      rw [List.countP_eq_zero]
      intro a ha
      simp [mem_noiseIssue ha]
    omega
  · rw [List.countP_append, List.countP_append]
    have h1 : (blurIssue blur).countP (fun i => decide (i.type = IssueType.contrast)) = 0 := by
      rw [List.countP_eq_zero]
      intro a ha
      simp [mem_blurIssue ha]
    have h3 : (noiseIssue m).countP (fun i => decide (i.type = IssueType.contrast)) = 0 := by
      rw [List.countP_eq_zero]
      intro a ha
      simp [mem_noiseIssue ha]
    omega
  · rw [List.countP_append, List.countP_append]
    have h1 : (blurIssue blur).countP (fun i => decide (i.type = IssueType.brightness)) = 0 := by
      rw [List.countP_eq_zero]
      intro a ha
      simp [mem_blurIssue ha]
    have h3 : (noiseIssue m).countP (fun i => decide (i.type = IssueType.brightness)) = 0 := by
      rw [List.countP_eq_zero]
      intro a ha
      simp [mem_noiseIssue ha]
    omega
  · rw [List.countP_append, List.countP_append]
    have h1 : (blurIssue blur).countP (fun i => decide (i.type = IssueType.noise)) = 0 := by
      rw [List.countP_eq_zero]
      intro a ha
      simp [mem_blurIssue ha]
    have h2 := hCountMidZero IssueType.noise (by simp) (by simp)
    have h4 : (noiseIssue m).countP (fun i => decide (i.type = IssueType.noise))
        ≤ (noiseIssue m).length := List.countP_le_length _
    omega
  · rw [List.countP_append, List.countP_append]
    have h1 : (blurIssue blur).countP (fun i => decide (i.type = IssueType.compression)) = 0 := by
      rw [List.countP_eq_zero]
      intro a ha
      simp [mem_blurIssue ha]
    have h2 := hCountMidZero IssueType.compression (by simp) (by simp)
    have h3 : (noiseIssue m).countP (fun i => decide (i.type = IssueType.compression)) = 0 := by
      rw [List.countP_eq_zero]
      intro a ha
      simp [mem_noiseIssue ha]
    omega
  · rw [List.length_append, List.length_append]
    omega

/-- A uniform buffer with byte-sized channels is well formed. -/
theorem uniformBuf_wf (w h r g b : Nat) (hr : r ≤ 255) (hg : g ≤ 255) (hb : b ≤ 255) :
    WellFormed (uniformBuf w h r g b) := by
  intro i
  rw [uniformBuf_data]
  split_ifs <;> omega

/-- Luminance is nonnegative. -/
theorem gray_nonneg (buf : ImageData) (idx : Nat) : 0 ≤ gray buf idx := by
  unfold gray
  positivity

/-- Luminance of a well-formed buffer is at most 255. -/
theorem gray_le (buf : ImageData) (hwf : WellFormed buf) (idx : Nat) : gray buf idx ≤ 255 := by
  unfold gray
  have h0 : ((buf.data idx : ℚ)) ≤ 255 := by exact_mod_cast hwf idx
  have h1 : ((buf.data (idx + 1) : ℚ)) ≤ 255 := by exact_mod_cast hwf (idx + 1)
  have h2 : ((buf.data (idx + 2) : ℚ)) ≤ 255 := by exact_mod_cast hwf (idx + 2)
  have g0 : (0 : ℚ) ≤ (buf.data idx : ℚ) := Nat.cast_nonneg _
  have g1 : (0 : ℚ) ≤ (buf.data (idx + 1) : ℚ) := Nat.cast_nonneg _
  have g2 : (0 : ℚ) ≤ (buf.data (idx + 2) : ℚ) := Nat.cast_nonneg _
  nlinarith

/-- The luminance histogram bin index of a well-formed buffer is a byte. -/
theorem lumNat_lt (buf : ImageData) (hwf : WellFormed buf) (p : Nat) : lumNat buf p < 256 := by
  unfold lumNat
  have hle : gray buf (4 * p) ≤ 255 := gray_le buf hwf (4 * p)
  have hre : round (gray buf (4 * p)) = ⌊gray buf (4 * p) + 1 / 2⌋ := round_eq _
  have hf2 : ⌊gray buf (4 * p) + 1 / 2⌋ ≤ ⌊(255 + 1 / 2 : ℚ)⌋ :=
    Int.floor_le_floor (by linarith)
  have hf3 : ⌊(255 + 1 / 2 : ℚ)⌋ = 255 := by
    rw [Int.floor_eq_iff]
    norm_num
  omega

/-- Summing the per-bin counts of a byte-valued feature over all 256 bins
counts every pixel exactly once. -/
theorem count_partition (N : Nat) (f : Nat → Nat)
    (hf : ∀ p ∈ Finset.range N, f p < 256) :
    ∑ v ∈ Finset.range 256, ((Finset.range N).filter (fun p => f p = v)).card = N := by
  have h1 : ∀ v, ((Finset.range N).filter (fun p => f p = v)).card
      = ∑ p ∈ Finset.range N, if f p = v then 1 else 0 := by
    intro v
    rw [Finset.card_filter]
  simp only [h1]
  rw [Finset.sum_comm]
  have h2 : ∀ p ∈ Finset.range N, (∑ v ∈ Finset.range 256, if f p = v then 1 else 0) = 1 := by
    intro p hp
    rw [Finset.sum_ite_eq]
    simp [Finset.mem_range.mpr (hf p hp)]
  rw [Finset.sum_congr rfl h2]
  simp

/-- C7 (confirmed): each of the four 256-bin histograms sums to
width*height on a well-formed buffer. -/
theorem c7_histogram_sums (buf : ImageData) (hwf : WellFormed buf) :
    (∑ v ∈ Finset.range 256, (calculateHistogram buf).red v) = buf.width * buf.height
      ∧ (∑ v ∈ Finset.range 256, (calculateHistogram buf).green v) = buf.width * buf.height
      ∧ (∑ v ∈ Finset.range 256, (calculateHistogram buf).blue v) = buf.width * buf.height
      ∧ (∑ v ∈ Finset.range 256, (calculateHistogram buf).luminance v) = buf.width * buf.height := by
  refine ⟨?_, ?_, ?_, ?_⟩
  · exact count_partition _ (fun p => buf.data (4 * p)) (fun p _ => by
      show buf.data (4 * p) < 256
      have := hwf (4 * p); omega)
  · exact count_partition _ (fun p => buf.data (4 * p + 1)) (fun p _ => by
      show buf.data (4 * p + 1) < 256
      have := hwf (4 * p + 1); omega)
  · exact count_partition _ (fun p => buf.data (4 * p + 2)) (fun p _ => by
      show buf.data (4 * p + 2) < 256
      have := hwf (4 * p + 2); omega)
  · exact count_partition _ (fun p => lumNat buf p) (fun p _ => by
      show lumNat buf p < 256
      exact lumNat_lt buf hwf p)

/-- C7 witness: the histograms of the 1x1 black buffer each sum to 1. -/
theorem c7_histogram_sums_witness :
    WellFormed black1
      ∧ ((∑ v ∈ Finset.range 256, (calculateHistogram black1).red v) = black1.width * black1.height
        ∧ (∑ v ∈ Finset.range 256, (calculateHistogram black1).green v) = black1.width * black1.height
        ∧ (∑ v ∈ Finset.range 256, (calculateHistogram black1).blue v) = black1.width * black1.height
        ∧ (∑ v ∈ Finset.range 256, (calculateHistogram black1).luminance v) = black1.width * black1.height) :=
  ⟨uniformBuf_wf 1 1 0 0 0 (by norm_num) (by norm_num) (by norm_num),
    c7_histogram_sums black1 (uniformBuf_wf 1 1 0 0 0 (by norm_num) (by norm_num) (by norm_num))⟩

/-- The histogram total of a single spike is the pixel count. -/
theorem histTotal_spike (v0 n : Nat) (hv : v0 < 256) :
    histTotal (spikeHist v0 n) = n := by
  unfold histTotal spikeHist
  rw [Finset.sum_ite_eq' (Finset.range 256) v0 (fun _ => n)]
  simp [Finset.mem_range.mpr hv]

/-- Every pixel of a uniform buffer lands in the bin uBin. -/
theorem lumNat_uniform (w h r g b p : Nat) :
    lumNat (uniformBuf w h r g b) p = uBin r g b := by
  unfold lumNat uBin
  rw [gray_uniform]

/-- The luminance histogram of a uniform buffer is a single spike. -/
theorem histLum_uniform (w h r g b : Nat) :
    histLum (uniformBuf w h r g b) = spikeHist (uBin r g b) (w * h) := by
  funext v
  unfold histLum spikeHist
  by_cases hv : v = uBin r g b
  · subst hv
    rw [Finset.filter_true_of_mem (fun p _ => lumNat_uniform w h r g b p), Finset.card_range]
    simp [uniformBuf]
  · rw [Finset.filter_false_of_mem (fun p _ => by
      rw [lumNat_uniform]
      exact fun hEq => hv hEq.symm), Finset.card_empty]
    simp [hv]

/-- Splitting the bin walk at the spike. -/
theorem range256_split (v0 : Nat) (hv : v0 < 256) :
    List.range 256 = List.range' 0 v0 ++ (v0 :: List.range' (v0 + 1) (255 - v0)) := by
  rw [List.range_eq_range']
  have h1 : List.range' 0 v0 1 ++ List.range' (0 + 1 * v0) (256 - v0) 1
      = List.range' 0 (256 - v0 + v0) 1 := List.range'_append 0 v0 (256 - v0) 1
  have h2 : 256 - v0 + v0 = 256 := by omega
  have h3 : 256 - v0 = (255 - v0) + 1 := by omega
  rw [h2] at h1
  rw [← h1, h3, List.range'_succ]
  simp [Nat.one_mul]

/-- The first nonzero bin of a nonempty spike histogram is the spike. -/
theorem findMinNonZero_spike (v0 n : Nat) (hv : v0 < 256) (hn : 0 < n) :
    findMinNonZero (spikeHist v0 n) = v0 := by
  unfold findMinNonZero
  rw [range256_split v0 hv, List.find?_append]
  have hpre : List.find? (fun i => decide (0 < spikeHist v0 n i)) (List.range' 0 v0) = none := by
    rw [List.find?_eq_none]
    intro x hx
    have hxlt : x < v0 := by
      have := List.mem_range'_1.mp hx
      omega
    simp [spikeHist, Nat.ne_of_lt hxlt]
  have hhead : List.find? (fun i => decide (0 < spikeHist v0 n i))
      (v0 :: List.range' (v0 + 1) (255 - v0)) = some v0 := by
    apply List.find?_cons_of_pos
    simp [spikeHist, hn]
  rw [hpre, hhead]
  rfl

/-- The last nonzero bin of a nonempty spike histogram is the spike. -/
theorem findMaxNonZero_spike (v0 n : Nat) (hv : v0 < 256) (hn : 0 < n) :
    findMaxNonZero (spikeHist v0 n) = v0 := by
  unfold findMaxNonZero
  rw [range256_split v0 hv]
  rw [List.reverse_append, List.reverse_cons, List.append_assoc]
  rw [List.find?_append]
  have hpre : List.find? (fun i => decide (0 < spikeHist v0 n i))
      (List.range' (v0 + 1) (255 - v0)).reverse = none := by
    rw [List.find?_eq_none]
    intro x hx
    rw [List.mem_reverse] at hx
    have hxgt : v0 < x := by
      have := List.mem_range'_1.mp hx
      omega
    simp [spikeHist, (Nat.ne_of_lt hxgt).symm]
  have hhead : List.find? (fun i => decide (0 < spikeHist v0 n i))
      ([v0] ++ (List.range' 0 v0).reverse) = some v0 := by
    rw [List.cons_append]
    apply List.find?_cons_of_pos
    simp [spikeHist, hn]
  rw [hpre, hhead]
  rfl

/-- The Michelson contrast of a spike histogram: NaN for the zero bin,
otherwise (v-v)/(v+v) = 0. -/
theorem michelson_spike (v0 n : Nat) (hv : v0 < 256) (hn : 0 < n) :
    michelsonContrastQ (spikeHist v0 n) = if v0 = 0 then none else some 0 := by
  unfold michelsonContrastQ
  rw [findMinNonZero_spike v0 n hv hn, findMaxNonZero_spike v0 n hv hn]
  by_cases h0 : v0 = 0
  · subst h0
    simp
  · rw [if_neg (by omega), if_neg h0]
    rw [sub_self, zero_div]

/-- Bins with zero counts advance the contrast-ratio walk without
latching either percentile. -/
theorem crGo_skip (hist : Nat → Nat) (p10T p90T : ℚ) (hp : 0 < p10T) (hq : 0 < p90T) :
    ∀ (l1 l2 : List Nat), (∀ i ∈ l1, hist i = 0) →
      crGo hist p10T p90T (l1 ++ l2) 0 0 = crGo hist p10T p90T l2 0 0 := by
  intro l1
  induction l1 with
  | nil =>
      intro l2 _
      rfl
  | cons a t ih =>
      intro l2 h0
      have ha : hist a = 0 := h0 a (by simp)
      simp only [List.cons_append, crGo, ha, Nat.add_zero, Nat.cast_zero]
      split_ifs with h1 h2 h3 <;>
        first
        | (exact absurd h1.1 (not_le.mpr hp))
        | (exact absurd h1 (not_le.mpr hq))
        | (exact absurd h2.1 (not_le.mpr hp))
        | (exact absurd h2 (not_le.mpr hq))
        | (exact absurd h3.1 (not_le.mpr hp))
        | (exact absurd h3 (not_le.mpr hq))
        | (exact ih l2 (fun i hi => h0 i (by simp [hi])))

/-- At the spike the walk latches both percentiles at the spike bin and
breaks. -/
theorem crGo_spike (v0 n : Nat) (hn : 0 < n) (l2 : List Nat) :
    crGo (spikeHist v0 n) ((n : ℚ) * (0.1 : ℚ)) ((n : ℚ) * (0.9 : ℚ)) (v0 :: l2) 0 0
      = (v0, v0) := by
  have hn0 : (0 : ℚ) < (n : ℚ) := by exact_mod_cast hn
  have hspike : spikeHist v0 n v0 = n := by simp [spikeHist]
  simp only [crGo, hspike, Nat.zero_add]
  split_ifs with h1 h2 <;>
    first
    | rfl
    | (exfalso
       apply h1
       nlinarith)
    | (exfalso
       apply h2
       first
       | nlinarith
       | exact ⟨by nlinarith, by trivial⟩)

/-- calculateContrastRatio of a spike histogram is 1 (through the p10 = 0
fallback when the spike is at bin 0, and as v/v otherwise). -/
theorem contrastRatio_spike (v0 n : Nat) (hv : v0 < 256) (hn : 0 < n) :
    calculateContrastRatio (spikeHist v0 n) = 1 := by
  unfold calculateContrastRatio
  rw [histTotal_spike v0 n hv]
  have hn0 : (0 : ℚ) < (n : ℚ) := by exact_mod_cast hn
  have hwalk : crGo (spikeHist v0 n) ((n : ℚ) * (0.1 : ℚ)) ((n : ℚ) * (0.9 : ℚ))
      (List.range 256) 0 0 = (v0, v0) := by
    rw [range256_split v0 hv]
    rw [crGo_skip (spikeHist v0 n) _ _ (by nlinarith) (by nlinarith) _ _ ?_]
    · exact crGo_spike v0 n hn _
    · intro i hi
      have hilt : i < v0 := by
        have := List.mem_range'_1.mp hi
        omega
      simp [spikeHist, Nat.ne_of_lt hilt]
  simp only [hwalk]
  by_cases h0 : 0 < v0
  · rw [if_pos h0]
    exact div_self (by exact_mod_cast Nat.pos_iff_ne_zero.mp h0)
  · rw [if_neg h0]

/-- The spike bin of byte-valued channels is a byte. -/
theorem uBin_lt (r g b : Nat) (hr : r ≤ 255) (hg : g ≤ 255) (hb : b ≤ 255) :
    uBin r g b < 256 := by
  unfold uBin
  have cr : ((r : ℚ)) ≤ 255 := by exact_mod_cast hr
  have cg : ((g : ℚ)) ≤ 255 := by exact_mod_cast hg
  have cb : ((b : ℚ)) ≤ 255 := by exact_mod_cast hb
  have h1 : uLum r g b ≤ 255 := by
    unfold uLum
    have g0 : (0 : ℚ) ≤ (r : ℚ) := Nat.cast_nonneg _
    have g1 : (0 : ℚ) ≤ (g : ℚ) := Nat.cast_nonneg _
    have g2 : (0 : ℚ) ≤ (b : ℚ) := Nat.cast_nonneg _
    nlinarith
  have hre : round (uLum r g b) = ⌊uLum r g b + 1 / 2⌋ := round_eq _
  have hf2 : ⌊uLum r g b + 1 / 2⌋ ≤ ⌊(255 + 1 / 2 : ℚ)⌋ := Int.floor_le_floor (by linarith)
  have hf3 : ⌊(255 + 1 / 2 : ℚ)⌋ = 255 := by
    rw [Int.floor_eq_iff]
    norm_num
  omega

/-- Mid-gray (128,128,128) lands in bin 128. -/
theorem uBin_gray : uBin 128 128 128 = 128 := by
  have h : uLum 128 128 128 = ((128 : ℤ) : ℚ) := by
    unfold uLum
    norm_num
  unfold uBin
  rw [h, round_intCast]
  rfl

/-- C3 (corrected): on every uniform buffer the Weber-style contrastRatio
is 1 (through the documented p10 = 0 fallback when the luminance bin is
0), but michelsonContrast is (v-v)/(v+v) = 0 for a positive luminance bin
and NaN (0/0) for bin 0 - not 1. -/
theorem c3_uniform_contrast (sq : ℚ → ℚ) (w h r g b : Nat) (hw : 0 < w) (hh : 0 < h)
    (hr : r ≤ 255) (hg : g ≤ 255) (hb : b ≤ 255) :
    (analyzeContrastBrightness sq (uniformBuf w h r g b)).contrast.contrastRatio = 1
      ∧ (analyzeContrastBrightness sq (uniformBuf w h r g b)).contrast.michelsonContrast
          = (if uBin r g b = 0 then none else some (0 : ℚ)) := by
  have hN : 0 < w * h := Nat.mul_pos hw hh
  have hv := uBin_lt r g b hr hg hb
  have hcr : (analyzeContrastBrightness sq (uniformBuf w h r g b)).contrast.contrastRatio
      = calculateContrastRatio (histLum (uniformBuf w h r g b)) := rfl
  have hmc : (analyzeContrastBrightness sq (uniformBuf w h r g b)).contrast.michelsonContrast
      = michelsonContrastQ (histLum (uniformBuf w h r g b)) := rfl
  rw [hcr, hmc, histLum_uniform]
  exact ⟨contrastRatio_spike _ _ hv hN, michelson_spike _ _ hv hN⟩

/-- C3 witness: the 1x1 mid-gray buffer, where contrastRatio is 1 and
michelsonContrast is some 0. -/
theorem c3_uniform_contrast_witness :
    ((0 : Nat) < 1 ∧ (128 : Nat) ≤ 255)
      ∧ ((analyzeContrastBrightness sqZero (uniformBuf 1 1 128 128 128)).contrast.contrastRatio = 1
        ∧ (analyzeContrastBrightness sqZero (uniformBuf 1 1 128 128 128)).contrast.michelsonContrast
            = (if uBin 128 128 128 = 0 then none else some (0 : ℚ))) :=
  ⟨⟨by decide, by decide⟩,
    c3_uniform_contrast sqZero 1 1 128 128 128 (by decide) (by decide) (by decide) (by decide)
      (by decide)⟩

/-- C3 counterexample: on the 4x4 uniform mid-gray buffer the Michelson
contrast is some 0, not 1. -/
theorem c3_counterexample :
    (analyzeContrastBrightness sqZero gray4).contrast.michelsonContrast = some (0 : ℚ)
      ∧ (analyzeContrastBrightness sqZero gray4).contrast.michelsonContrast ≠ some (1 : ℚ) := by
  have h : (analyzeContrastBrightness sqZero gray4).contrast.michelsonContrast
      = michelsonContrastQ (histLum gray4) := rfl
  have h2 : histLum gray4 = spikeHist 128 16 := by
    show histLum (uniformBuf 4 4 128 128 128) = _
    rw [histLum_uniform, uBin_gray]
  rw [h, h2, michelson_spike 128 16 (by norm_num) (by norm_num)]
  norm_num

/-- A buffer at least 3x3 has interior pixels. -/
theorem interiorCount_pos (buf : ImageData) (hw : 3 ≤ buf.width) (hh : 3 ≤ buf.height) :
    interiorCount buf ≠ 0 := by
  unfold interiorCount
  apply Finset.card_ne_zero_of_mem (a := ((1 : Nat), (1 : Nat)))
  unfold interiorPx
  rw [Finset.mem_product]
  constructor <;> (rw [Finset.mem_Ico]; omega)

/-- Whatever reaches the blur-confidence clamp lands in [0.3, 0.95]. -/
theorem calcBlurConfidence_bounds (score : Option ℚ) (regions : List BlurRegion) (c : ℚ)
    (hc : calcBlurConfidence score regions = some c) : (0.3 : ℚ) ≤ c ∧ c ≤ (0.95 : ℚ) := by
  simp only [calcBlurConfidence, Option.map_map] at hc
  rcases Option.map_eq_some'.mp hc with ⟨d, _, hfd⟩
  rw [← hfd]
  exact clampConf_bounds _

/-- The blur confidence is an actual number (never NaN): when regions
exist the buffer is at least 33 pixels in both dimensions, so the
combined score is a number too. -/
theorem blurConfidence_some (sq : ℚ → ℚ) (buf : ImageData) :
    ∃ c, (analyzeBlur sq buf).confidence = some c := by
  by_cases hreg : detectBlurRegions buf = []
  · show ∃ c, calcBlurConfidence _ (detectBlurRegions buf) = some c
    rw [hreg]
    exact ⟨_, rfl⟩
  · obtain ⟨r, hr⟩ := List.exists_mem_of_ne_nil _ hreg
    obtain ⟨v, _, _, _, _, _, _, hxw, hyh, _, _⟩ := region_shape buf r hr
    have hw : 3 ≤ buf.width := by omega
    have hh : 3 ≤ buf.height := by omega
    have hic := interiorCount_pos buf hw hh
    have hl : laplacianScore buf = some (lapVar buf) := by simp [laplacianScore, hic]
    have hs : sobelScore sq buf = some (sobelTotal sq buf / (interiorCount buf : ℚ)) := by
      simp [sobelScore, hic]
    show ∃ c, calcBlurConfidence
      (combineBlurScores (laplacianScore buf) (sobelScore sq buf) (fftSharpness sq buf))
      (detectBlurRegions buf) = some c
    rw [hl, hs]
    rcases hregs : detectBlurRegions buf with _ | ⟨a, t⟩
    · exact absurd hregs hreg
    · exact ⟨_, rfl⟩

/-- The classification confidence clamp lands in [0.3, 0.95]. -/
theorem classificationConfidence_bounds (f : FeatureScores) :
    (0.3 : ℚ) ≤ classificationConfidence f ∧ classificationConfidence f ≤ (0.95 : ℚ) := by
  unfold classificationConfidence
  exact clampConf_bounds _

/-- The aggregate confidence clamp lands in [0.3, 0.95]. -/
theorem calculateConfidence_bounds (m : ImageMetrics) (issues : List QualityIssue)
    (aiConf : Option ℚ) :
    (0.3 : ℚ) ≤ calculateConfidence m issues aiConf
      ∧ calculateConfidence m issues aiConf ≤ (0.95 : ℚ) := by
  unfold calculateConfidence
  exact clampConf_bounds _

/-- Per-pixel saturation is a fraction in [0, 1]. -/
theorem pixelSat_bounds (buf : ImageData) (p : Nat) :
    0 ≤ pixelSat buf p ∧ pixelSat buf p ≤ 1 := by
  unfold pixelSat
  set r := buf.data (4 * p)
  set g := buf.data (4 * p + 1)
  set b := buf.data (4 * p + 2)
  by_cases hmx : max r (max g b) = 0
  · rw [if_pos hmx]
    norm_num
  · rw [if_neg hmx]
    have hmn : min r (min g b) ≤ max r (max g b) :=
      le_trans (Nat.min_le_left _ _) (Nat.le_max_left _ _)
    have hpos : (0 : ℚ) < ((max r (max g b) : ℕ) : ℚ) :=
      Nat.cast_pos.mpr (Nat.pos_of_ne_zero hmx)
    constructor
    · exact div_nonneg (sub_nonneg.mpr (Nat.cast_le.mpr hmn)) hpos.le
    · rw [div_le_one hpos]
      have : (0 : ℚ) ≤ ((min r (min g b) : ℕ) : ℚ) := Nat.cast_nonneg _
      linarith

/-- Clamping a nonnegative value by Math.min(x, 1) lands in [0, 1]. -/
theorem jsMin01 (x : ℚ) (hx : 0 ≤ x) : 0 ≤ jsMin x 1 ∧ jsMin x 1 ≤ 1 := by
  rw [jsMin_eq]
  exact ⟨le_min hx (by norm_num), min_le_right _ _⟩

/-- C5 (confirmed): on a well-formed nonempty buffer all five metrics lie
in [0, 1], and the blur-analysis, classification and overall confidences
lie in [0.3, 0.95] (the blur confidence is moreover an actual number,
never NaN). -/
theorem c5_ranges (sq : ℚ → ℚ) (rand : Nat → ℚ) (buf : ImageData)
    (hsq : ∀ x, 0 ≤ sq x) (hwf : WellFormed buf) (hw : 0 < buf.width) (hh : 0 < buf.height) :
    (0 ≤ (calculateMetrics sq buf).sharpness ∧ (calculateMetrics sq buf).sharpness ≤ 1)
      ∧ (0 ≤ (calculateMetrics sq buf).contrast ∧ (calculateMetrics sq buf).contrast ≤ 1)
      ∧ (0 ≤ (calculateMetrics sq buf).brightness ∧ (calculateMetrics sq buf).brightness ≤ 1)
      ∧ (0 ≤ (calculateMetrics sq buf).saturation ∧ (calculateMetrics sq buf).saturation ≤ 1)
      ∧ (0 ≤ (calculateMetrics sq buf).noise ∧ (calculateMetrics sq buf).noise ≤ 1)
      ∧ (∃ c, (analyzeBlur sq buf).confidence = some c ∧ (0.3 : ℚ) ≤ c ∧ c ≤ (0.95 : ℚ))
      ∧ ((0.3 : ℚ) ≤ (analyze sq rand buf).aiConfidence
          ∧ (analyze sq rand buf).aiConfidence ≤ (0.95 : ℚ))
      ∧ ((0.3 : ℚ) ≤ (analyze sq rand buf).confidence
          ∧ (analyze sq rand buf).confidence ≤ (0.95 : ℚ)) := by
  have hN : (0 : ℚ) < ((buf.width * buf.height : Nat) : ℚ) := by
    exact_mod_cast Nat.mul_pos hw hh
  refine ⟨?_, ?_, ?_, ?_, ?_, ?_, ?_, ?_⟩
  · show 0 ≤ jsMin (lapAbsSum buf / ((buf.width * buf.height : Nat) : ℚ)) 1
      ∧ jsMin (lapAbsSum buf / ((buf.width * buf.height : Nat) : ℚ)) 1 ≤ 1
    apply jsMin01
    exact div_nonneg (Finset.sum_nonneg (fun p _ => abs_nonneg _)) hN.le
  · show 0 ≤ jsMin (calculateContrast sq buf _ / 255) 1
      ∧ jsMin (calculateContrast sq buf _ / 255) 1 ≤ 1
    apply jsMin01
    exact div_nonneg (hsq _) (by norm_num)
  · show 0 ≤ brightnessSum buf / ((buf.width * buf.height : Nat) : ℚ) / 255
      ∧ brightnessSum buf / ((buf.width * buf.height : Nat) : ℚ) / 255 ≤ 1
    have hS0 : 0 ≤ brightnessSum buf :=
      Finset.sum_nonneg (fun p _ => gray_nonneg buf (4 * p))
    have hS1 : brightnessSum buf ≤ ((buf.width * buf.height : Nat) : ℚ) * 255 := by
      unfold brightnessSum
      calc ∑ p ∈ Finset.range (buf.width * buf.height), gray buf (4 * p)
          ≤ ∑ _p ∈ Finset.range (buf.width * buf.height), (255 : ℚ) :=
            Finset.sum_le_sum (fun p _ => gray_le buf hwf (4 * p))
        _ = ((buf.width * buf.height : Nat) : ℚ) * 255 := by
            rw [Finset.sum_const, Finset.card_range, nsmul_eq_mul]
    constructor
    · exact div_nonneg (div_nonneg hS0 hN.le) (by norm_num)
    · rw [div_le_one (by norm_num : (0 : ℚ) < 255), div_le_iff₀ hN]
      linarith
  · show 0 ≤ satSum buf / ((buf.width * buf.height : Nat) : ℚ)
      ∧ satSum buf / ((buf.width * buf.height : Nat) : ℚ) ≤ 1
    have h0 : 0 ≤ satSum buf :=
      Finset.sum_nonneg (fun p _ => (pixelSat_bounds buf p).1)
    have h1 : satSum buf ≤ ((buf.width * buf.height : Nat) : ℚ) := by
      unfold satSum
      calc ∑ p ∈ Finset.range (buf.width * buf.height), pixelSat buf p
          ≤ ∑ _p ∈ Finset.range (buf.width * buf.height), (1 : ℚ) :=
            Finset.sum_le_sum (fun p _ => (pixelSat_bounds buf p).2)
        _ = ((buf.width * buf.height : Nat) : ℚ) := by
            rw [Finset.sum_const, Finset.card_range, nsmul_eq_mul, mul_one]
    exact ⟨div_nonneg h0 hN.le, by rw [div_le_one hN]; linarith⟩
  · show 0 ≤ jsMin (noiseSum buf / ((buf.width * buf.height : Nat) : ℚ)) 1
      ∧ jsMin (noiseSum buf / ((buf.width * buf.height : Nat) : ℚ)) 1 ≤ 1
    apply jsMin01
    apply div_nonneg _ hN.le
    apply Finset.sum_nonneg
    intro p _
    unfold noisePix
    exact div_nonneg (Finset.sum_nonneg (fun d _ => sq_nonneg _)) (by norm_num)
  · obtain ⟨c, hc⟩ := blurConfidence_some sq buf
    exact ⟨c, hc, calcBlurConfidence_bounds _ _ c hc⟩
  · exact classificationConfidence_bounds _
  · have hEq : (analyze sq rand buf).confidence
        = calculateConfidence (calculateMetrics sq buf)
            (detectIssues (calculateMetrics sq buf) (some (analyzeBlur sq buf))
              (some (analyzeContrastBrightness sq buf)))
            (some (classifyImage rand (calculateMetrics sq buf) (some (analyzeBlur sq buf))
              (some (analyzeContrastBrightness sq buf))).2) := rfl
    rw [hEq]
    exact calculateConfidence_bounds _ _ _

/-- C5 witness: the 1x1 black buffer with the zero sqrt stub and the zero
placeholder stream. -/
theorem c5_ranges_witness :
    ((∀ x : ℚ, 0 ≤ sqZero x) ∧ WellFormed black1 ∧ 0 < black1.width ∧ 0 < black1.height)
      ∧ ((0 ≤ (calculateMetrics sqZero black1).sharpness
            ∧ (calculateMetrics sqZero black1).sharpness ≤ 1)
        ∧ (0 ≤ (calculateMetrics sqZero black1).contrast
            ∧ (calculateMetrics sqZero black1).contrast ≤ 1)
        ∧ (0 ≤ (calculateMetrics sqZero black1).brightness
            ∧ (calculateMetrics sqZero black1).brightness ≤ 1)
        ∧ (0 ≤ (calculateMetrics sqZero black1).saturation
            ∧ (calculateMetrics sqZero black1).saturation ≤ 1)
        ∧ (0 ≤ (calculateMetrics sqZero black1).noise
            ∧ (calculateMetrics sqZero black1).noise ≤ 1)
        ∧ (∃ c, (analyzeBlur sqZero black1).confidence = some c
            ∧ (0.3 : ℚ) ≤ c ∧ c ≤ (0.95 : ℚ))
        ∧ ((0.3 : ℚ) ≤ (analyze sqZero randZero black1).aiConfidence
            ∧ (analyze sqZero randZero black1).aiConfidence ≤ (0.95 : ℚ))
        ∧ ((0.3 : ℚ) ≤ (analyze sqZero randZero black1).confidence
            ∧ (analyze sqZero randZero black1).confidence ≤ (0.95 : ℚ))) :=
  ⟨⟨fun _ => le_refl 0,
    uniformBuf_wf 1 1 0 0 0 (by decide) (by decide) (by decide), by decide, by decide⟩,
    c5_ranges sqZero randZero black1 (fun _ => le_refl 0)
      (uniformBuf_wf 1 1 0 0 0 (by decide) (by decide) (by decide)) (by decide) (by decide)⟩

/-- With the zero sqrt stub every Sobel magnitude is 0. -/
theorem sobelTotal_sqZero (buf : ImageData) : sobelTotal sqZero buf = 0 :=
  Finset.sum_eq_zero (fun _ _ => rfl)

/-- With the zero sqrt stub the gradient-energy ratio is its 0 guard. -/
theorem fftSharpness_sqZero (buf : ImageData) : fftSharpness sqZero buf = 0 := by
  unfold fftSharpness
  have h : fftTotal sqZero buf = 0 := Finset.sum_eq_zero (fun _ _ => rfl)
  rw [h]
  simp

/-- With the zero sqrt stub the global contrast is 0. -/
theorem globalContrastQ_sqZero (hist : Nat → Nat) : globalContrastQ sqZero hist = 0 := by
  unfold globalContrastQ
  show (0 : ℚ) / 255 = 0
  norm_num

/-- Directional blur vanishes on a uniform buffer. -/
theorem directionalBlur_uniform (w h r g b dx dy : Nat) :
    directionalBlur (uniformBuf w h r g b) dx dy = 0 := by
  unfold directionalBlur
  have hsum : (∑ p ∈ dirPairs (uniformBuf w h r g b) dx dy,
      |grayXY (uniformBuf w h r g b) (p.2 + dx) (p.1 + dy)
        - grayXY (uniformBuf w h r g b) p.2 p.1|) = 0 :=
    Finset.sum_eq_zero (fun p _ => by rw [grayXY_uniform, grayXY_uniform, sub_self, abs_zero])
  simp [hsum]

/-- The brightness accumulator of a uniform buffer. -/
theorem brightnessSum_uniform (w h r g b : Nat) :
    brightnessSum (uniformBuf w h r g b) = ((w * h : Nat) : ℚ) * uLum r g b := by
  unfold brightnessSum
  rw [Finset.sum_congr rfl (fun p _ => gray_uniform w h r g b p)]
  rw [Finset.sum_const, Finset.card_range, nsmul_eq_mul]
  rfl

/-- The saturation accumulator vanishes on a single-colour gray buffer. -/
theorem satSum_uniform_gray (w h c : Nat) : satSum (uniformBuf w h c c c) = 0 := by
  refine Finset.sum_eq_zero (fun p _ => ?_)
  unfold pixelSat
  have m0 : (4 * p) % 4 = 0 := by omega
  have m1 : (4 * p + 1) % 4 = 1 := by omega
  have m2 : (4 * p + 2) % 4 = 2 := by omega
  simp only [uniformBuf_data, m0, m1, m2]
  norm_num

/-- The noise accumulator vanishes on a uniform buffer. -/
theorem noiseSum_uniform (w h r g b : Nat) : noiseSum (uniformBuf w h r g b) = 0 := by
  refine Finset.sum_eq_zero (fun p _ => ?_)
  unfold noisePix
  rw [Finset.sum_eq_zero, zero_div]
  intro d _
  rw [grayXY_uniform, grayXY_uniform, sub_self]
  exact zero_pow (by norm_num)

/-- The metrics of the 4x4 mid-gray buffer. -/
theorem metrics_gray4 :
    calculateMetrics sqZero gray4 = ⟨0, 0, (128 : ℚ) / 255, 0, 0⟩ := by
  have h1 : lapAbsSum gray4 = 0 := lapAbsSum_uniform 4 4 128 128 128
  have h2 : brightnessSum gray4 = ((4 * 4 : Nat) : ℚ) * uLum 128 128 128 :=
    brightnessSum_uniform 4 4 128 128 128
  have h2b : brightnessSum gray4 = 2048 := by
    rw [h2]
    norm_num [uLum]
  have h3 : satSum gray4 = 0 := satSum_uniform_gray 4 4 128
  have h4 : noiseSum gray4 = 0 := noiseSum_uniform 4 4 128 128 128
  have h5 : calculateContrast sqZero gray4
      (brightnessSum gray4 / ((gray4.width * gray4.height : Nat) : ℚ)) = 0 := rfl
  unfold calculateMetrics
  rw [ImageMetrics.mk.injEq]
  refine ⟨?_, ?_, ?_, ?_, ?_⟩
  · rw [h1]
    norm_num [jsMin]
  · rw [h5]
    norm_num [jsMin]
  · rw [h2b]
    show (2048 : ℚ) / ((16 : Nat) : ℚ) / 255 = 128 / 255
    norm_num
  · rw [h3]
    show (0 : ℚ) / ((16 : Nat) : ℚ) = 0
    norm_num
  · rw [h4]
    norm_num [jsMin]

/-- The luminance histogram of the 4x4 mid-gray buffer. -/
theorem histLum_gray4 : histLum gray4 = spikeHist 128 16 := by
  show histLum (uniformBuf 4 4 128 128 128) = _
  rw [histLum_uniform, uBin_gray]

/-- The weighted bin sum of a spike histogram. -/
theorem histWeighted_spike (v0 n : Nat) (hv : v0 < 256) :
    histWeighted (spikeHist v0 n) = (v0 : ℚ) * (n : ℚ) := by
  unfold histWeighted spikeHist
  have hterm : ∀ i ∈ Finset.range 256,
      (i : ℚ) * (((if i = v0 then n else 0 : Nat)) : ℚ)
        = if i = v0 then (v0 : ℚ) * (n : ℚ) else 0 := by
    intro i _
    split_ifs with h
    · rw [h]
    · norm_num
  rw [Finset.sum_congr rfl hterm, Finset.sum_ite_eq' (Finset.range 256) v0
    (fun _ => (v0 : ℚ) * (n : ℚ))]
  simp [Finset.mem_range.mpr hv]

/-- A spike histogram vanishes on every set of bins avoiding the spike. -/
theorem spike_sum_zero (v0 n : Nat) (s : Finset Nat) (hs : v0 ∉ s) :
    (∑ i ∈ s, spikeHist v0 n i) = 0 := by
  refine Finset.sum_eq_zero (fun i hi => ?_)
  unfold spikeHist
  rw [if_neg]
  exact fun hEq => hs (hEq ▸ hi)

/-- The overall blur score of the 4x4 mid-gray buffer is 0 (not NaN). -/
theorem blurScore_gray4 : (analyzeBlur sqZero gray4).overallBlurScore = some 0 := by
  have hic : interiorCount gray4 ≠ 0 := by decide
  have hl : laplacianScore gray4 = some 0 := laplacianScore_uniform 4 4 128 128 128 hic
  have hs : sobelScore sqZero gray4 = some 0 := by
    unfold sobelScore
    rw [if_neg hic, sobelTotal_sqZero, zero_div]
  have hf : fftSharpness sqZero gray4 = 0 := fftSharpness_sqZero gray4
  show combineBlurScores (laplacianScore gray4) (sobelScore sqZero gray4)
      (fftSharpness sqZero gray4) = some 0
  rw [hl, hs, hf]
  norm_num [combineBlurScores, jsMin]

/-- The global contrast of the 4x4 mid-gray buffer is 0. -/
theorem global_gray4 :
    (analyzeContrastBrightness sqZero gray4).contrast.globalContrast = 0 := by
  show globalContrastQ sqZero (histLum gray4) = 0
  exact globalContrastQ_sqZero _

/-- The local contrast of the 4x4 mid-gray buffer is 0 (no window fits). -/
theorem local_gray4 :
    (analyzeContrastBrightness sqZero gray4).contrast.localContrast = 0 := by
  show calculateLocalContrast gray4 = 0
  rfl

/-- The exposure level of the 4x4 mid-gray buffer is optimal. -/
theorem expLevel_gray4 :
    (analyzeContrastBrightness sqZero gray4).brightness.exposureLevel
      = ExposureLevel.optimal := by
  show (calculateBrightnessMetrics gray4 (histLum gray4)).exposureLevel
      = ExposureLevel.optimal
  unfold calculateBrightnessMetrics
  rw [histLum_gray4, histWeighted_spike 128 16 (by norm_num)]
  have h16 : ((gray4.width * gray4.height : Nat) : ℚ) = 16 := by
    norm_num [gray4, uniformBuf]
  simp only [h16]
  norm_num

/-- The 4x4 mid-gray buffer has optimal exposure (no clipping). -/
theorem optExp_gray4 :
    (analyzeContrastBrightness sqZero gray4).exposureAnalysis.optimalExposure = true := by
  show (analyzeExposure (histLum gray4)
      (calculateBrightnessMetrics gray4 (histLum gray4))).optimalExposure = true
  unfold analyzeExposure
  rw [histLum_gray4]
  have hcs : (∑ i ∈ Finset.range 11, spikeHist 128 16 i) = 0 :=
    spike_sum_zero 128 16 _ (by decide)
  have hch : (∑ i ∈ Finset.Icc 245 255, spikeHist 128 16 i) = 0 :=
    spike_sum_zero 128 16 _ (by decide)
  rw [hcs, hch, histTotal_spike 128 16 (by norm_num)]
  norm_num

/-- The technical score of the 4x4 mid-gray buffer: base 0.3 plus the
brightness term 0.15*(254/255) plus the optimal-exposure bonus 0.1. -/
theorem tech_gray4 :
    calculateTechnicalScore ⟨0, 0, (128 : ℚ) / 255, 0, 0⟩
      (some (analyzeBlur sqZero gray4)) (some (analyzeContrastBrightness sqZero gray4))
      = (467 : ℚ) / 850 := by
  unfold calculateTechnicalScore
  simp only [blurScore_gray4, optExp_gray4, modelWeights, optGT]
  norm_num [clamp01, jsMin, jsMax]
  rw [show |(1 : ℚ) / 510| = 1 / 510 from abs_of_pos (by norm_num),
    show |(3 : ℚ) / 20| = 3 / 20 from abs_of_pos (by norm_num)]
  norm_num

/-- Classification confidence on the 4x4 gray buffer with the all-zero
placeholder stream: the overall score is borderline, so 0.8 - 0.2. -/
theorem conf_gray4_zero :
    classificationConfidence (extractFeatures randZero ⟨0, 0, (128 : ℚ) / 255, 0, 0⟩
      (some (analyzeBlur sqZero gray4)) (some (analyzeContrastBrightness sqZero gray4)))
      = (3 : ℚ) / 5 := by
  unfold classificationConfidence extractFeatures overallScoreF aestheticScoreQ
    compositionScoreQ randZero
  rw [tech_gray4]
  norm_num [clamp01, jsMin, jsMax]

/-- Classification confidence on the 4x4 gray buffer with the constant
one-half placeholder stream: the overall score is unremarkable, so 0.8. -/
theorem conf_gray4_half :
    classificationConfidence (extractFeatures randHalf ⟨0, 0, (128 : ℚ) / 255, 0, 0⟩
      (some (analyzeBlur sqZero gray4)) (some (analyzeContrastBrightness sqZero gray4)))
      = (4 : ℚ) / 5 := by
  unfold classificationConfidence extractFeatures overallScoreF aestheticScoreQ
    compositionScoreQ randHalf
  rw [tech_gray4]
  norm_num [clamp01, jsMin, jsMax]

/-- The issues of the 4x4 mid-gray buffer: a high blur issue and a high
contrast issue, nothing else. -/
theorem issues_gray4 :
    detectIssues ⟨0, 0, (128 : ℚ) / 255, 0, 0⟩ (some (analyzeBlur sqZero gray4))
      (some (analyzeContrastBrightness sqZero gray4))
      = [⟨IssueType.blur, Severity.high, 1⟩, ⟨IssueType.contrast, Severity.high, 1⟩] := by
  have h1 : blurIssue (some (analyzeBlur sqZero gray4))
      = [⟨IssueType.blur, Severity.high, 1⟩] := by
    unfold blurIssue
    simp only [blurScore_gray4]
    norm_num
  have h2 : contrastIssueAdv (analyzeContrastBrightness sqZero gray4)
      = [⟨IssueType.contrast, Severity.high, 1⟩] := by
    unfold contrastIssueAdv
    rw [global_gray4, local_gray4]
    norm_num
  have h3 : brightnessIssueAdv (analyzeContrastBrightness sqZero gray4) = [] := by
    unfold brightnessIssueAdv
    rw [expLevel_gray4]
    simp
  have h4 : noiseIssue ⟨0, 0, (128 : ℚ) / 255, 0, 0⟩ = [] := by
    unfold noiseIssue
    norm_num
  unfold detectIssues
  simp only [h1, h2, h3, h4]
  rfl

/-- C4 counterexample: on the 4x4 uniform mid-gray buffer two runs of
analyze that differ only in the pseudo-random placeholder stream return
different confidences (0.5 versus 0.6). -/
theorem c4_counterexample :
    (analyze sqZero randZero gray4).confidence = (1 : ℚ) / 2
      ∧ (analyze sqZero randHalf gray4).confidence = (3 : ℚ) / 5
      ∧ (analyze sqZero randZero gray4).confidence
          ≠ (analyze sqZero randHalf gray4).confidence := by
  have hdec : ∀ rand : Nat → ℚ, (analyze sqZero rand gray4).confidence
      = calculateConfidence (calculateMetrics sqZero gray4)
          (detectIssues (calculateMetrics sqZero gray4) (some (analyzeBlur sqZero gray4))
            (some (analyzeContrastBrightness sqZero gray4)))
          (some (classificationConfidence (extractFeatures rand (calculateMetrics sqZero gray4)
            (some (analyzeBlur sqZero gray4))
            (some (analyzeContrastBrightness sqZero gray4))))) :=
    fun _ => rfl
  have hz : (analyze sqZero randZero gray4).confidence = (1 : ℚ) / 2 := by
    rw [hdec randZero, metrics_gray4, issues_gray4, conf_gray4_zero]
    unfold calculateConfidence
    norm_num [jsMin, jsMax]
  have hhalf : (analyze sqZero randHalf gray4).confidence = (3 : ℚ) / 5 := by
    rw [hdec randHalf, metrics_gray4, issues_gray4, conf_gray4_half]
    unfold calculateConfidence
    norm_num [jsMin, jsMax]
  refine ⟨hz, hhalf, ?_⟩
  rw [hz, hhalf]
  norm_num

/-- C4 (corrected): two runs of analyze on the same buffer agree on
metrics, blurAnalysis, contrastBrightnessAnalysis and issues whatever the
placeholder streams deliver; overallQuality and confidence are not
covered because they consume the classification built from the
pseudo-random placeholder sub-scores. -/
theorem c4_determinism :
    ∀ (sq : ℚ → ℚ) (r1 r2 : Nat → ℚ) (buf : ImageData),
      (analyze sq r1 buf).metrics = (analyze sq r2 buf).metrics
        ∧ (analyze sq r1 buf).blurAnalysis = (analyze sq r2 buf).blurAnalysis
        ∧ (analyze sq r1 buf).contrastBrightnessAnalysis
            = (analyze sq r2 buf).contrastBrightnessAnalysis
        ∧ (analyze sq r1 buf).issues = (analyze sq r2 buf).issues :=
  fun _ _ _ _ => ⟨rfl, rfl, rfl, rfl⟩
